import Mathlib

/-!
Verification development for the SmlSchema-TS schema compiler.

The TypeScript sources are shallowly embedded: pure functions become Lean
functions, mutable objects become explicit state passing, fallible methods
return `Except String`.  JavaScript numbers reaching range bounds are
modelled by `JsNum` (integer, `NaN`, or `null`), since `parseInt` can
produce `NaN` and range fields can legitimately hold `null`.  The external
SML node-tree library (`sml.js`) is not part of the repository sources; the
operations the loader consumes are modelled from the spec's fixed query
contract and are marked as such in their doc comments.
-/

set_option autoImplicit false
set_option maxRecDepth 8000

/-! ## JavaScript primitive layer -/

/-- Value of a JavaScript `number | null` slot: an integer, `NaN`,
or `null`.  (The schema code only ever produces integral numbers.) -/
inductive JsNum : Type where
  | null : JsNum
  | nan : JsNum
  | int : Int → JsNum
  deriving DecidableEq, Repr

/-- JavaScript strict equality `===` restricted to `number | null` values:
`NaN === x` is always `false`, `null === null` is `true`. -/
def JsNum.seq : JsNum → JsNum → Bool
  | .int a, .int b => a == b
  | .null, .null => true
  | _, _ => false

/-- JavaScript `<` on `number | null` slots as used by the sources: only
integer-integer comparisons can be true (`NaN` comparisons are `false`;
the sources guard `null` behind `!== null` checks before comparing). -/
def JsNum.lt : JsNum → JsNum → Bool
  | .int a, .int b => a < b
  | _, _ => false

/-- JavaScript string coercion of a `number | null` slot (`"" + x`). -/
def JsNum.render : JsNum → String
  | .null => "null"
  | .nan => "NaN"
  | .int n => n.repr

/-- JavaScript `String.prototype.substring(a, b)` for the in-range,
ordered uses appearing in the sources. -/
def jsSubstring (s : String) (a b : Nat) : String :=
  String.mk ((s.toList.drop a).take (b - a))

/-- Index of the first occurrence of a character, mirroring
`String.prototype.indexOf` (`none` plays the role of `-1`). -/
def jsIndexOfChar (s : String) (c : Char) : Option Nat :=
  s.toList.findIdx? (· == c)

/-- Modelled from JavaScript `Number.parseInt` on decimal input: optional
sign followed by the longest digit prefix; `NaN` when no digit is found. -/
def jsParseInt (s : String) : JsNum :=
  let cs := s.toList
  let (neg, rest) :=
    match cs with
    | '-' :: t => (true, t)
    | '+' :: t => (false, t)
    | t => (false, t)
  let digits := rest.takeWhile Char.isDigit
  if digits.isEmpty then .nan
  else
    let n : Nat := digits.foldl (fun a c => a * 10 + (c.toNat - 48)) 0
    .int (if neg then -(n : Int) else (n : Int))

/-- JavaScript `String.prototype.toLowerCase` (ASCII use sites only);
character-list based so that proofs can evaluate it. -/
def jsToLower (s : String) : String :=
  String.mk (s.toList.map Char.toLower)

/-- JavaScript `String.prototype.toUpperCase` (ASCII use sites only). -/
def jsToUpper (s : String) : String :=
  String.mk (s.toList.map Char.toUpper)

/-- JavaScript `String.prototype.endsWith`. -/
def jsEndsWith (s sfx : String) : Bool :=
  sfx.toList.isSuffixOf s.toList

/-- Splitting on the two-character separator `..`, as
`String.prototype.split("..")` does (leftmost-first, non-overlapping). -/
def jsSplitDoubleDot (s : String) : List String :=
  go s.toList []
where
  go : List Char → List Char → List String
    | [], acc => [String.mk acc.reverse]
    | '.' :: '.' :: rest2, acc => String.mk acc.reverse :: go rest2 []
    | c :: rest, acc => go rest (c :: acc)

/-! ## OccurrenceRange (`SsRange`) -/

/-- Embeds `SsRange`: optional numeric `min` and `max` bounds. -/
structure SsRange : Type where
  min : JsNum
  max : JsNum
  deriving DecidableEq, Repr

/-- Embeds the checked `SsRange` constructor: fails when both bounds are
present numbers with `max < min`. -/
def SsRange.make (min max : JsNum) : Except String SsRange :=
  if min != .null && max != .null && JsNum.lt max min then .error "Invalid bounds"
  else .ok ⟨min, max⟩

def SsRange.isRequired (r : SsRange) : Bool :=
  r.min != .null && r.max != .null && JsNum.seq r.min (.int 1) && JsNum.seq r.max (.int 1)

def SsRange.isOptional (r : SsRange) : Bool :=
  r.min != .null && r.max != .null && JsNum.seq r.min (.int 0) && JsNum.seq r.max (.int 1)

def SsRange.isRepeatedPlus (r : SsRange) : Bool :=
  r.min != .null && JsNum.seq r.min (.int 1) && JsNum.seq r.max .null

def SsRange.isRepeatedStar (r : SsRange) : Bool :=
  ((r.min != .null && JsNum.seq r.min (.int 0)) || JsNum.seq r.min .null) && JsNum.seq r.max .null

def SsRange.isFixed (r : SsRange) : Bool :=
  r.min != .null && r.max != .null && JsNum.seq r.min r.max

/-- `SsRange.required()`; the constructor check trivially passes. -/
def SsRange.required : SsRange := ⟨.int 1, .int 1⟩

/-- `SsRange.optional()`. -/
def SsRange.optional : SsRange := ⟨.int 0, .int 1⟩

/-- `SsRange.repeatedPlus()`. -/
def SsRange.repeatedPlus : SsRange := ⟨.int 1, .null⟩

/-- `SsRange.repeatedStar()`. -/
def SsRange.repeatedStar : SsRange := ⟨.null, .null⟩

/-- `SsRange.fixed(size)`; the constructor check `max < min` can never
fire for equal bounds. -/
def SsRange.fixed (size : JsNum) : SsRange := ⟨size, size⟩

/-- Number of the five derived predicates holding on a range. -/
def SsRange.predCount (r : SsRange) : Nat :=
  [r.isRequired, r.isOptional, r.isRepeatedPlus, r.isRepeatedStar, r.isFixed].count true

/-! ## Predefined types -/

/-- Embeds the `SsPredefinedType` enum. -/
inductive SsPredefinedType : Type where
  | Bool | Int | UInt | Number | String | Date | Time | Base64 | DateTime
  deriving DecidableEq, Repr

/-- Embeds `SsPredefinedTypeUtil.getPredefinedTypeOrNull`: lowercases the
input and matches the nine canonical names. -/
def SsPredefinedTypeUtil.getPredefinedTypeOrNull (str : String) : Option SsPredefinedType :=
  match jsToLower str with
  | "bool" => some .Bool
  | "int" => some .Int
  | "uint" => some .UInt
  | "number" => some .Number
  | "string" => some .String
  | "date" => some .Date
  | "time" => some .Time
  | "base64" => some .Base64
  | "datetime" => some .DateTime
  | _ => none

/-- Embeds `SsPredefinedTypeUtil.getPredefinedTypeString`.  The source's
`switch` has no `case` for `Base64`, so that member falls through to the
trailing `throw`. -/
def SsPredefinedTypeUtil.getPredefinedTypeString : SsPredefinedType → Except String String
  | .Bool => .ok "Bool"
  | .Int => .ok "Int"
  | .UInt => .ok "UInt"
  | .Number => .ok "Number"
  | .String => .ok "String"
  | .Date => .ok "Date"
  | .Time => .ok "Time"
  | .DateTime => .ok "DateTime"
  | .Base64 => .error "Invalid predefined type string"

/-! ## Value types, struct definitions -/

/-- Embeds the `SsValueTypeDef` hierarchy (enum, string, number variants). -/
inductive SsValueTypeDef : Type where
  | enum (name : String) (values : List String)
  | stringType (name : String)
  | numberType (name : String)
  deriving DecidableEq, Repr

def SsValueTypeDef.name : SsValueTypeDef → String
  | .enum n _ => n
  | .stringType n => n
  | .numberType n => n

/-- Embeds `SsStructValue`. -/
structure SsStructValue : Type where
  name : String
  optional : Bool
  predefinedType : Option SsPredefinedType
  valueTypeDef : Option SsValueTypeDef
  nullable : Bool
  deriving DecidableEq, Repr

/-- Embeds `SsStructValue.getTypeString`; propagates the renderer's failure
for `Base64` and models the `valueTypeDef!` access on a missing value type
as a failure. -/
def SsStructValue.getTypeString (v : SsStructValue) : Except String String := do
  let typeName ←
    match v.predefinedType with
    | some pt => SsPredefinedTypeUtil.getPredefinedTypeString pt
    | none =>
      match v.valueTypeDef with
      | some vt => Except.ok vt.name
      | none => Except.error "TypeError: Cannot read properties of undefined"
  pure (if v.nullable then typeName ++ "?" else typeName)

/-- Embeds `SsStructDef` (the owning `definitions` back-reference carries
no data relevant to the embedded operations and is dropped). -/
structure SsStructDef : Type where
  name : String
  values : List SsStructValue
  deriving DecidableEq, Repr

/-- Embeds the `hasOptional` getter: `find(x => x.optional) !== undefined`. -/
def SsStructDef.hasOptional (s : SsStructDef) : Bool :=
  (s.values.find? (·.optional)).isSome

/-- Embeds `SsStructDef.addValue`: when the struct is non-empty and the new
value is required while the last stored value is optional, the insertion
fails; otherwise the value is appended. -/
def SsStructDef.addValue (s : SsStructDef) (name : String) (optional : Bool)
    (predefinedType : Option SsPredefinedType) (valueTypeDef : Option SsValueTypeDef)
    (nullable : Bool) : Except String SsStructDef :=
  let value : SsStructValue := ⟨name, optional, predefinedType, valueTypeDef, nullable⟩
  match s.values.getLast? with
  | some lastValue =>
    if !optional && lastValue.optional then
      .error "Value is not optional but value before was optional"
    else .ok { s with values := s.values ++ [value] }
  | none => .ok { s with values := s.values ++ [value] }

/-- One requested `addValue` call, for reasoning about operation sequences. -/
structure SsAddOp : Type where
  name : String
  optional : Bool
  predefinedType : Option SsPredefinedType
  valueTypeDef : Option SsValueTypeDef
  nullable : Bool
  deriving DecidableEq, Repr

def SsStructDef.runAdds (s : SsStructDef) (ops : List SsAddOp) : Except String SsStructDef :=
  ops.foldlM (fun acc op => acc.addValue op.name op.optional op.predefinedType op.valueTypeDef op.nullable) s

/-- Trailing-optional shape: once a value is optional, every later value is
optional too. -/
def trailingOptionalOk : List SsStructValue → Bool
  | [] => true
  | v :: rest => if v.optional then rest.all (·.optional) else trailingOptionalOk rest

/-! ## AttributeDataType -/

/-- Embeds `SsAttributeDataType` (fields only; construction checks live in
`SsAttributeDataType.make`). -/
structure SsAttributeDataType : Type where
  predefinedType : Option SsPredefinedType
  valueTypeDef : Option SsValueTypeDef
  structDef : Option SsStructDef
  nullable : Bool
  arrayRange : Option SsRange
  arrayNullable : Bool
  deriving DecidableEq, Repr

def SsAttributeDataType.isPredefinedType (t : SsAttributeDataType) : Bool := t.predefinedType.isSome
def SsAttributeDataType.isValueType (t : SsAttributeDataType) : Bool := t.valueTypeDef.isSome
def SsAttributeDataType.isStruct (t : SsAttributeDataType) : Bool := t.structDef.isSome
def SsAttributeDataType.isArray (t : SsAttributeDataType) : Bool := t.arrayRange.isSome

/-- Embeds the `SsAttributeDataType` constructor with its six guard
clauses, in source order: base-kind exclusivity (exactly one of the three
references), `arrayNullable` requiring an array range, and the ban on
arrays over structs with optional values. -/
def SsAttributeDataType.make (predefinedType : Option SsPredefinedType)
    (valueTypeDef : Option SsValueTypeDef) (structDef : Option SsStructDef)
    (nullable : Bool) (arrayRange : Option SsRange) (arrayNullable : Bool) :
    Except String SsAttributeDataType :=
  if predefinedType.isSome && (valueTypeDef.isSome || structDef.isSome) then .error ""
  else if valueTypeDef.isSome && (predefinedType.isSome || structDef.isSome) then .error ""
  else if structDef.isSome && (predefinedType.isSome || valueTypeDef.isSome) then .error ""
  else if structDef.isNone && predefinedType.isNone && valueTypeDef.isNone then .error ""
  else if arrayRange.isNone && arrayNullable then .error ""
  else
    let t : SsAttributeDataType := ⟨predefinedType, valueTypeDef, structDef, nullable, arrayRange, arrayNullable⟩
    match structDef with
    | some sd =>
      if t.isArray && sd.hasOptional then
        .error ("Array of struct \"" ++ sd.name ++ "\" with optional values not allowed")
      else .ok t
    | none => .ok t

/-- Embeds `SsAttributeDataType.toString`: canonical rendering
`base[?][[bounds]][?]`; fails when the predefined-type renderer fails. -/
def SsAttributeDataType.toString (t : SsAttributeDataType) : Except String String := do
  let typeName ←
    match t.predefinedType with
    | some pt => SsPredefinedTypeUtil.getPredefinedTypeString pt
    | none =>
      match t.valueTypeDef with
      | some vt => Except.ok vt.name
      | none =>
        match t.structDef with
        | some sd => Except.ok sd.name
        | none => Except.error "TypeError: Cannot read properties of undefined"
  let typeName := if t.nullable then typeName ++ "?" else typeName
  let typeName :=
    match t.arrayRange with
    | some r =>
      let arrayRangeStr := r.min.render
      let arrayRangeStr :=
        if !r.isFixed then
          arrayRangeStr ++ ".." ++ (if r.max == .null then "N" else r.max.render)
        else arrayRangeStr
      typeName ++ "[" ++ arrayRangeStr ++ "]"
    | none => typeName
  pure (if t.arrayNullable then typeName ++ "?" else typeName)

/-- Embeds `SsAttributeDef`: a name and a write-once data-type slot. -/
structure SsAttributeDef : Type where
  name : String
  dataType : Option SsAttributeDataType
  deriving DecidableEq, Repr

/-- Embeds the `dataType` getter (fails while the slot is unset). -/
def SsAttributeDef.getDataType (a : SsAttributeDef) : Except String SsAttributeDataType :=
  match a.dataType with
  | some dt => .ok dt
  | none => .error "Data type not set"

/-! ## Scoped definition registry (`SsDefinitionList`)

A `SsDefinitionList<T>` object is a local name-to-entity map plus an
optional parent list of the same kind.  The chain of an object and its
ancestors is represented as a list of frames, innermost first; the
recursion of `has`/`getOrNull` over the parent pointer becomes recursion
over the tail. -/

/-- One `SsDefinitionList<T>` object: its local map (in insertion order)
and the two description strings used in error messages. -/
structure SsDefFrame (α : Type) : Type where
  map : List (String × α)
  typeDescription : String
  selfDescription : String
  deriving DecidableEq, Repr

/-- Lookup in one local map (`Map.get`; keys are unique per map). -/
def assocGet {α : Type} (m : List (String × α)) (name : String) : Option α :=
  (m.find? (·.1 == name)).map (·.2)

/-- `Map.set` on a local map: replaces in place when the key exists,
appends otherwise (JavaScript `Map` preserves the original position). -/
def assocSet {α : Type} (m : List (String × α)) (name : String) (item : α) : List (String × α) :=
  match m with
  | [] => [(name, item)]
  | (k, v) :: rest => if k == name then (k, item) :: rest else (k, v) :: assocSet rest name item

/-- Embeds `SsDefinitionList.has`: local map first, then the parent chain. -/
def chainHas {α : Type} : List (SsDefFrame α) → String → Bool
  | [], _ => false
  | f :: parents, name =>
    if (assocGet f.map name).isSome then true else chainHas parents name

/-- Embeds `SsDefinitionList.getOrNull`: local map first, then the parent
chain. -/
def chainGetOrNull {α : Type} : List (SsDefFrame α) → String → Option α
  | [], _ => none
  | f :: parents, name =>
    match assocGet f.map name with
    | some item => some item
    | none => chainGetOrNull parents name

/-- Embeds `SsDefinitionList.get`: `getOrNull`, failing with the calling
list's descriptions when the whole chain misses. -/
def chainGet {α : Type} (chain : List (SsDefFrame α)) (name : String) : Except String α :=
  match chainGetOrNull chain name with
  | some item => .ok item
  | none =>
    match chain with
    | f :: _ => .error (f.typeDescription ++ " \"" ++ name ++ "\" not defined in " ++ f.selfDescription)
    | [] => .error ("\"" ++ name ++ "\" not defined")

/-- Embeds `SsDefinitionList.add`: fails when the name exists in the local
map only; otherwise creates the entity with the stored factory and
installs it.  Returns the entity and the updated local frame. -/
def chainAdd {α : Type} (f : SsDefFrame α) (name : String) (newFunction : String → α) :
    Except String (α × SsDefFrame α) :=
  if (assocGet f.map name).isSome then
    .error (f.typeDescription ++ " \"" ++ name ++ "\" already exists in " ++ f.selfDescription)
  else
    let item := newFunction name
    .ok (item, { f with map := f.map ++ [(name, item)] })

/-- Embeds `SsDefinitionList.addExisting`: same local-duplicate check,
installing an already-built entity. -/
def chainAddExisting {α : Type} (f : SsDefFrame α) (name : String) (item : α) :
    Except String (α × SsDefFrame α) :=
  if (assocGet f.map name).isSome then
    .error (f.typeDescription ++ " \"" ++ name ++ "\" already exists in " ++ f.selfDescription)
  else .ok (item, { f with map := f.map ++ [(name, item)] })

/-! ## Definitions scopes and element definitions

`SsDefinitions`/`SsElementDef` are mutually recursive (an element owns a
nested scope that can define further elements).  Parent scopes are not
stored inside the value; the loader passes the ancestor scopes explicitly
wherever the sources walk a parent pointer.  Content objects do not store
the back-reference to their owning element; the owner's name is passed to
the operations that need it for error messages.  Entries referencing other
definitions store the referenced definition as resolved at insertion
time. -/

/-- Embeds `SsUnorderedAttribute`. -/
structure SsUnorderedAttribute : Type where
  attributeDef : SsAttributeDef
  occurrence : SsRange
  inline : Bool
  deriving DecidableEq, Repr

mutual
/-- Embeds `SsElementDef`: name, owned nested scope, write-once content. -/
inductive SsElementDef : Type where
  | mk (name : String) (definitions : SsDefinitions) (content : Option SsElementContent) : SsElementDef

/-- Embeds `SsDefinitions`: the owning element's name (`none` at schema
root, for the scope description) and the four local namespaces in
insertion order. -/
inductive SsDefinitions : Type where
  | mk (ownerName : Option String)
       (valueTypeDefs : List (String × SsValueTypeDef))
       (structDefs : List (String × SsStructDef))
       (attributeDefs : List (String × SsAttributeDef))
       (elementDefs : List (String × SsElementDef)) : SsDefinitions

/-- Embeds the `SsElementContent` variants: `SsUnorderedContent` holds the
named child-element and attribute entries (insertion order); the ordered
variant exists as a tag only, as in the sources. -/
inductive SsElementContent : Type where
  | unordered (elements : List (String × SsUnorderedElement))
              (attributes : List (String × SsUnorderedAttribute)) : SsElementContent
  | ordered : SsElementContent

/-- Embeds `SsUnorderedElement`. -/
inductive SsUnorderedElement : Type where
  | mk (elementDef : SsElementDef) (occurrence : SsRange) : SsUnorderedElement
end

def SsElementDef.name : SsElementDef → String
  | .mk n _ _ => n

def SsElementDef.definitions : SsElementDef → SsDefinitions
  | .mk _ d _ => d

def SsElementDef.content : SsElementDef → Option SsElementContent
  | .mk _ _ c => c

def SsDefinitions.ownerName : SsDefinitions → Option String
  | .mk o _ _ _ _ => o

def SsDefinitions.valueTypeDefs : SsDefinitions → List (String × SsValueTypeDef)
  | .mk _ v _ _ _ => v

def SsDefinitions.structDefs : SsDefinitions → List (String × SsStructDef)
  | .mk _ _ s _ _ => s

def SsDefinitions.attributeDefs : SsDefinitions → List (String × SsAttributeDef)
  | .mk _ _ _ a _ => a

def SsDefinitions.elementDefs : SsDefinitions → List (String × SsElementDef)
  | .mk _ _ _ _ e => e

def SsUnorderedElement.elementDef : SsUnorderedElement → SsElementDef
  | .mk e _ => e

def SsUnorderedElement.occurrence : SsUnorderedElement → SsRange
  | .mk _ o => o

/-- A freshly constructed `SsDefinitions` scope (all four maps empty). -/
def SsDefinitions.empty (ownerName : Option String) : SsDefinitions :=
  .mk ownerName [] [] [] []

/-- Scope description used in definition-list error messages: `schema` at
the root, otherwise the owning element's name. -/
def SsDefinitions.selfDescription (d : SsDefinitions) : String :=
  match d.ownerName with
  | none => "schema"
  | some n => "ElementDef \"" ++ n ++ "\""

/-- The `valueTypeDefs` lists of a scope chain, as definition-list frames. -/
def valueTypeFrames (chain : List SsDefinitions) : List (SsDefFrame SsValueTypeDef) :=
  chain.map (fun d => ⟨d.valueTypeDefs, "ValueTypeDef", d.selfDescription⟩)

def structFrames (chain : List SsDefinitions) : List (SsDefFrame SsStructDef) :=
  chain.map (fun d => ⟨d.structDefs, "StructDef", d.selfDescription⟩)

def attributeFrames (chain : List SsDefinitions) : List (SsDefFrame SsAttributeDef) :=
  chain.map (fun d => ⟨d.attributeDefs, "AttributeDef", d.selfDescription⟩)

def elementFrames (chain : List SsDefinitions) : List (SsDefFrame SsElementDef) :=
  chain.map (fun d => ⟨d.elementDefs, "ElementDef", d.selfDescription⟩)

def SsDefinitions.setValueTypeDefs (d : SsDefinitions) (m : List (String × SsValueTypeDef)) : SsDefinitions :=
  .mk d.ownerName m d.structDefs d.attributeDefs d.elementDefs

def SsDefinitions.setStructDefs (d : SsDefinitions) (m : List (String × SsStructDef)) : SsDefinitions :=
  .mk d.ownerName d.valueTypeDefs m d.attributeDefs d.elementDefs

def SsDefinitions.setAttributeDefs (d : SsDefinitions) (m : List (String × SsAttributeDef)) : SsDefinitions :=
  .mk d.ownerName d.valueTypeDefs d.structDefs m d.elementDefs

def SsDefinitions.setElementDefs (d : SsDefinitions) (m : List (String × SsElementDef)) : SsDefinitions :=
  .mk d.ownerName d.valueTypeDefs d.structDefs d.attributeDefs m

/-- Embeds `SsDefinitions.addEnum`: builds an `SsEnumTypeDef` and installs
it via `valueTypeDefs.addExisting`. -/
def SsDefinitions.addEnum (d : SsDefinitions) (name : String) (values : List String) :
    Except String SsDefinitions := do
  let (_, f) ← chainAddExisting ⟨d.valueTypeDefs, "ValueTypeDef", d.selfDescription⟩ name (.enum name values)
  pure (d.setValueTypeDefs f.map)

/-! ## External SML node-tree contract

The generic tokenizer/tree-builder lives in the external `sml.js`
collaborator; the loader consumes it only through the fixed query contract
of the spec.  The node shape and the contract operations below are
modelled from that contract. -/

/-- Modelled from the spec: a named, multi-valued attribute node of the
generic document tree. -/
structure SmlAttributeNode : Type where
  name : String
  values : List String
  deriving DecidableEq, Repr

/-- Modelled from the spec: a named node of the generic document tree,
holding named multi-valued attributes and nested child elements. -/
inductive SmlElement : Type where
  | mk (name : String) (attributes : List SmlAttributeNode) (elements : List SmlElement) : SmlElement

def SmlElement.name : SmlElement → String
  | .mk n _ _ => n

def SmlElement.attributes : SmlElement → List SmlAttributeNode
  | .mk _ a _ => a

def SmlElement.elements : SmlElement → List SmlElement
  | .mk _ _ e => e

/-- Modelled from the spec: `get-string(i)` on an attribute. -/
def SmlAttributeNode.getString (a : SmlAttributeNode) (i : Nat) : Except String String :=
  match a.values.get? i with
  | some v => .ok v
  | none => .error ("Attribute \"" ++ a.name ++ "\" has no value at index " ++ Nat.repr i)

/-- Modelled from the spec: `asString` fetches the single value of an
attribute, failing when the attribute does not hold exactly one value. -/
def SmlAttributeNode.asString (a : SmlAttributeNode) : Except String String :=
  match a.values with
  | [v] => .ok v
  | _ => .error ("Attribute \"" ++ a.name ++ "\" does not have exactly one value")

/-- Modelled from the spec: `get-string-list` returns all values. -/
def SmlAttributeNode.asStringArray (a : SmlAttributeNode) : List String :=
  a.values

/-- Modelled from the spec: `assert-exact-value-count(n)`. -/
def SmlAttributeNode.assureValueCount (a : SmlAttributeNode) (n : Nat) : Except String Unit :=
  if a.values.length == n then .ok ()
  else .error ("Attribute \"" ++ a.name ++ "\" does not have a value count of " ++ Nat.repr n)

/-- Modelled from the spec: `assert-value-count-range(min,max)`. -/
def SmlAttributeNode.assureValueCountMinMax (a : SmlAttributeNode) (min max : Nat) : Except String Unit :=
  if min ≤ a.values.length && a.values.length ≤ max then .ok ()
  else .error ("Attribute \"" ++ a.name ++ "\" has an invalid value count")

/-- Modelled from the spec: `get-enum-index(allowed-labels, i)` matches the
value at index `i` against the allowed labels and returns its position. -/
def SmlAttributeNode.getEnum (a : SmlAttributeNode) (allowed : List String) (i : Nat) :
    Except String Nat := do
  let v ← a.getString i
  match allowed.findIdx? (· == v) with
  | some idx => pure idx
  | none => .error ("Attribute \"" ++ a.name ++ "\" has an invalid enum value \"" ++ v ++ "\"")

def SmlAttributeNode.valueCount (a : SmlAttributeNode) : Nat :=
  a.values.length

/-- Modelled from the spec: `assert-node-name`. -/
def SmlElement.assureName (e : SmlElement) (n : String) : Except String Unit :=
  if e.name == n then .ok ()
  else .error ("Element with name \"" ++ n ++ "\" expected but found \"" ++ e.name ++ "\"")

/-- Modelled from the spec: the permitted-child-name assertion; every child
element's name must be among the allowed names. -/
def SmlElement.assureElementNames (e : SmlElement) (allowed : List String) : Except String Unit :=
  match e.elements.find? (fun c => !(allowed.contains c.name)) with
  | some c => .error ("Element with name \"" ++ c.name ++ "\" is not allowed")
  | none => .ok ()

/-- Modelled from the spec: the permitted-attribute-name assertion. -/
def SmlElement.assureAttributeNames (e : SmlElement) (allowed : List String) : Except String Unit :=
  match e.attributes.find? (fun a => !(allowed.contains a.name)) with
  | some a => .error ("Attribute with name \"" ++ a.name ++ "\" is not allowed")
  | none => .ok ()

/-- Modelled from the spec: `assert-no-children`. -/
def SmlElement.assureNoElements (e : SmlElement) : Except String Unit :=
  if e.elements.isEmpty then .ok () else .error "Element must not contain elements"

/-- Modelled from the spec: `assert-no-attributes`. -/
def SmlElement.assureNoAttributes (e : SmlElement) : Except String Unit :=
  if e.attributes.isEmpty then .ok () else .error "Element must not contain attributes"

/-- Modelled from the spec: `iterate-children(name)`. -/
def SmlElement.elementsNamed (e : SmlElement) (n : String) : List SmlElement :=
  e.elements.filter (·.name == n)

/-- Modelled from the spec: `iterate-attributes(name)`. -/
def SmlElement.attributesNamed (e : SmlElement) (n : String) : List SmlAttributeNode :=
  e.attributes.filter (·.name == n)

def SmlElement.hasElement (e : SmlElement) (n : String) : Bool :=
  e.elements.any (·.name == n)

/-- Modelled from the spec: `fetch-optional-child(name)`: none or exactly
one child of that name. -/
def SmlElement.optionalElement (e : SmlElement) (n : String) : Except String (Option SmlElement) :=
  match e.elementsNamed n with
  | [] => .ok none
  | [c] => .ok (some c)
  | _ => .error ("Element \"" ++ n ++ "\" occurs more than once")

/-- Modelled from the spec: `fetch-required-attribute(name)`. -/
def SmlElement.requiredAttribute (e : SmlElement) (n : String) : Except String SmlAttributeNode :=
  match e.attributesNamed n with
  | [a] => .ok a
  | [] => .error ("Required attribute \"" ++ n ++ "\" is missing")
  | _ => .error ("Attribute \"" ++ n ++ "\" occurs more than once")

/-- Modelled from the spec: `fetch-optional-attribute(name)`. -/
def SmlElement.optionalAttribute (e : SmlElement) (n : String) : Except String (Option SmlAttributeNode) :=
  match e.attributesNamed n with
  | [] => .ok none
  | [a] => .ok (some a)
  | _ => .error ("Attribute \"" ++ n ++ "\" occurs more than once")

/-- Modelled from the spec: `assureChoice` over child-element kinds — at
most one of the named kinds may be present, and at least one must be
present unless `canBeWithoutChoice` is set (the loader passes `true`). -/
def SmlElement.assureChoice (e : SmlElement) (names : List String) (canBeWithoutChoice : Bool) :
    Except String Unit :=
  let present := names.filter (fun n => e.hasElement n)
  if present.length > 1 then .error "Element contains more than one of the choice elements"
  else if present.length == 0 && !canBeWithoutChoice then .error "Element contains none of the choice elements"
  else .ok ()

/-! ## Schema aggregate -/

/-- The schema's private root-element slot.  In the sources the field is
declared `SsElementDef | null` but `setRootElementDefault` can store the
JavaScript `undefined` (indexing an empty array), which the `=== null`
guard in `getRootElement` does not catch; the slot therefore has three
observable states. -/
inductive RootSlot : Type where
  | jsNull : RootSlot
  | jsUndef : RootSlot
  | set (e : SsElementDef) : RootSlot

/-- Embeds `SmlSchema`: the root definitions scope and the root-element
slot (initially `null`). -/
structure SmlSchema : Type where
  definitions : SsDefinitions
  rootSlot : RootSlot

/-- Embeds `SmlSchema.getRootElement`: fails only on the `null` state; the
`undefined` state escapes the guard and is returned (as `none`). -/
def SmlSchema.getRootElement (s : SmlSchema) : Except String (Option SsElementDef) :=
  match s.rootSlot with
  | .jsNull => .error "Root element not set"
  | .jsUndef => .ok none
  | .set e => .ok (some e)

/-- Embeds `SmlSchema.setRootElementByName`: resolves through the root
scope's `elementDefs` list (no parent at schema level). -/
def SmlSchema.setRootElementByName (s : SmlSchema) (name : String) : Except String SmlSchema := do
  let e ← chainGet (elementFrames [s.definitions]) name
  pure { s with rootSlot := .set e }

/-- Embeds `SmlSchema.setRootElementDefault`: fails when the root scope
holds more than one element definition; otherwise stores `values[0]`,
which is the JavaScript `undefined` when no element definition exists. -/
def SmlSchema.setRootElementDefault (s : SmlSchema) : Except String SmlSchema :=
  if s.definitions.elementDefs.length > 1 then
    .error "Cannot set default root element because the schema contains multiple ElementDefs at root level"
  else
    match s.definitions.elementDefs.head? with
    | some (_, e) => .ok { s with rootSlot := .set e }
    | none => .ok { s with rootSlot := .jsUndef }

/-! ## Unordered content operations -/

/-- Embeds `SsUnorderedContent.addElement`: duplicate check in the content
map, then resolution of the child element through the owning element's
scope chain. -/
def SsUnorderedContent.addElement (ownerName : String)
    (elems : List (String × SsUnorderedElement)) (chain : List SsDefinitions)
    (elementName : String) (occurrence : SsRange) :
    Except String (List (String × SsUnorderedElement)) :=
  if (assocGet elems elementName).isSome then
    .error ("Element \"" ++ ownerName ++ "\" already contains an unordered element with name \"" ++ elementName ++ "\"")
  else do
    let childElementDef ← chainGet (elementFrames chain) elementName
    pure (elems ++ [(elementName, SsUnorderedElement.mk childElementDef occurrence)])

/-- Embeds `SsUnorderedContent.addAttribute`: duplicate check, then
resolution of a previously declared `SsAttributeDef`. -/
def SsUnorderedContent.addAttribute (ownerName : String)
    (attrs : List (String × SsUnorderedAttribute)) (chain : List SsDefinitions)
    (attributeName : String) (occurrence : SsRange) :
    Except String (List (String × SsUnorderedAttribute)) :=
  if (assocGet attrs attributeName).isSome then
    .error ("Element \"" ++ ownerName ++ "\" already contains an unordered attribute with name \"" ++ attributeName ++ "\"")
  else do
    let childAttributeDef ← chainGet (attributeFrames chain) attributeName
    pure (attrs ++ [(attributeName, ⟨childAttributeDef, occurrence, false⟩)])

/-- Embeds `SsUnorderedContent.addInlineAttribute`: duplicate check, then
installation of the anonymous attribute definition. -/
def SsUnorderedContent.addInlineAttribute (ownerName : String)
    (attrs : List (String × SsUnorderedAttribute))
    (inlineAttributeDef : SsAttributeDef) (occurrence : SsRange) :
    Except String (List (String × SsUnorderedAttribute)) :=
  if (assocGet attrs inlineAttributeDef.name).isSome then
    .error ("Element \"" ++ ownerName ++ "\" already contains an unordered attribute with name \"" ++ inlineAttributeDef.name ++ "\"")
  else
    .ok (attrs ++ [(inlineAttributeDef.name, ⟨inlineAttributeDef, occurrence, true⟩)])

/-! ## Schema loader -/

/-- Embeds `SmlSchemaLoader.getOccurrence`: maps the four occurrence
labels to the named range constructors. -/
def SmlSchemaLoader.getOccurrence (sAttribute : SmlAttributeNode) (index : Nat) :
    Except String SsRange := do
  let occurrenceIndex ← sAttribute.getEnum ["Required", "Optional", "Repeated+", "Repeated*"] index
  if occurrenceIndex == 0 then pure SsRange.required
  else if occurrenceIndex == 1 then pure SsRange.optional
  else if occurrenceIndex == 2 then pure SsRange.repeatedPlus
  else if occurrenceIndex == 3 then pure SsRange.repeatedStar
  else .error "Could not get occurrence"

/-- Embeds `SmlSchemaLoader.loadDataType`: strips, right to left, a
trailing `]?` (array nullability), a `[bounds]` suffix (fixed size or
`a..b`/`a..N`), and a trailing `?` (base nullability); the remaining token
resolves against predefined types, then value types (`getOrNull`), then
structs (`get`, failing when undefined), through the scope chain. -/
def SmlSchemaLoader.loadDataType (dataTypeStr : String) (chain : List SsDefinitions) :
    Except String SsAttributeDataType := do
  let (arrayNullable, dataTypeStr) :=
    if jsEndsWith dataTypeStr "]?" then (true, jsSubstring dataTypeStr 0 (dataTypeStr.length - 1))
    else (false, dataTypeStr)
  let (arrayBounds, dataTypeStr) ←
    if jsEndsWith dataTypeStr "]" then
      match jsIndexOfChar dataTypeStr '[' with
      | none => Except.error "Invalid data type"
      | some splitIndex => do
        let arrayBoundsStr := jsSubstring dataTypeStr (splitIndex + 1) (dataTypeStr.length - 1)
        let rest := jsSubstring dataTypeStr 0 splitIndex
        if (jsSplitDoubleDot arrayBoundsStr).length > 1 then do
          let parts := (jsSplitDoubleDot arrayBoundsStr).take 2
          let minSize := jsParseInt (parts.getD 0 "")
          let maxSize :=
            if jsToUpper (parts.getD 1 "") != "N" then jsParseInt (parts.getD 1 "") else JsNum.null
          let arrayBounds ← SsRange.make minSize maxSize
          pure (some arrayBounds, rest)
        else do
          let fixedSize := jsParseInt arrayBoundsStr
          if JsNum.lt fixedSize (.int 0) then Except.error "Invalid array size"
          else pure (some (SsRange.fixed fixedSize), rest)
    else pure (none, dataTypeStr)
  let (nullable, dataTypeStr) :=
    if jsEndsWith dataTypeStr "?" then (true, jsSubstring dataTypeStr 0 (dataTypeStr.length - 1))
    else (false, dataTypeStr)
  let predefinedType := SsPredefinedTypeUtil.getPredefinedTypeOrNull dataTypeStr
  let valueTypeDef : Option SsValueTypeDef :=
    match predefinedType with
    | none => chainGetOrNull (valueTypeFrames chain) dataTypeStr
    | some _ => none
  let structDef ←
    match predefinedType, valueTypeDef with
    | none, none => some <$> chainGet (structFrames chain) dataTypeStr
    | _, _ => pure (none : Option SsStructDef)
  SsAttributeDataType.make predefinedType valueTypeDef structDef nullable arrayBounds arrayNullable

/-- Embeds `SmlSchemaLoader.loadEnumTypeDef`. -/
def SmlSchemaLoader.loadEnumTypeDef (sEnumTypeDef : SmlElement) (defs : SsDefinitions) :
    Except String SsDefinitions := do
  sEnumTypeDef.assureNoElements
  sEnumTypeDef.assureAttributeNames ["Name", "Values"]
  let nameAttr ← sEnumTypeDef.requiredAttribute "Name"
  let name ← nameAttr.asString
  let valuesAttr ← sEnumTypeDef.requiredAttribute "Values"
  defs.addEnum name valuesAttr.asStringArray

/-- Embeds `SmlSchemaLoader.loadStructValue`: three values (name,
`Required`/`Optional`, type string with optional trailing `?`), resolved
against predefined types then the value-type scope chain. -/
def SmlSchemaLoader.loadStructValue (sValueAttribute : SmlAttributeNode)
    (structDef : SsStructDef) (chain : List SsDefinitions) : Except String SsStructDef := do
  sValueAttribute.assureValueCount 3
  let valueName ← sValueAttribute.getString 0
  let optionalIdx ← sValueAttribute.getEnum ["Required", "Optional"] 1
  let optional := optionalIdx == 1
  let typeStr ← sValueAttribute.getString 2
  let (nullable, typeStr) :=
    if jsEndsWith typeStr "?" then (true, jsSubstring typeStr 0 (typeStr.length - 1))
    else (false, typeStr)
  let predefinedType := SsPredefinedTypeUtil.getPredefinedTypeOrNull typeStr
  let valueTypeDef ←
    match predefinedType with
    | none => some <$> chainGet (valueTypeFrames chain) typeStr
    | some _ => pure (none : Option SsValueTypeDef)
  structDef.addValue valueName optional predefinedType valueTypeDef nullable

/-- Embeds the `Struct` loop of `SmlSchemaLoader.loadDefinitions`:
duplicate check at registration, then the `Value` attributes populate the
struct. -/
def SmlSchemaLoader.loadStructDefsLoop (sStructDefs : List SmlElement) (defs : SsDefinitions)
    (ancestors : List SsDefinitions) : Except String SsDefinitions :=
  sStructDefs.foldlM (fun defs sStructDef => do
    let nameAttr ← sStructDef.requiredAttribute "Name"
    let name ← nameAttr.asString
    if (assocGet defs.structDefs name).isSome then
      .error ("StructDef \"" ++ name ++ "\" already exists in " ++ defs.selfDescription)
    else do
      let structDef ← (sStructDef.attributesNamed "Value").foldlM
        (fun sd a => SmlSchemaLoader.loadStructValue a sd (defs :: ancestors))
        (⟨name, []⟩ : SsStructDef)
      pure (defs.setStructDefs (defs.structDefs ++ [(name, structDef)]))) defs

/-- Embeds the `Attribute` loop of `SmlSchemaLoader.loadDefinitions`:
duplicate check at registration, then the `DataType` string is parsed and
stored in the write-once slot. -/
def SmlSchemaLoader.loadAttributeDefsLoop (sAttributeDefs : List SmlElement) (defs : SsDefinitions)
    (ancestors : List SsDefinitions) : Except String SsDefinitions :=
  sAttributeDefs.foldlM (fun defs sAttributeDef => do
    let nameAttr ← sAttributeDef.requiredAttribute "Name"
    let name ← nameAttr.asString
    if (assocGet defs.attributeDefs name).isSome then
      .error ("AttributeDef \"" ++ name ++ "\" already exists in " ++ defs.selfDescription)
    else do
      let dataTypeAttr ← sAttributeDef.requiredAttribute "DataType"
      let dataTypeStr ← dataTypeAttr.asString
      let dataType ← SmlSchemaLoader.loadDataType dataTypeStr (defs :: ancestors)
      pure (defs.setAttributeDefs (defs.attributeDefs ++ [(name, ⟨name, some dataType⟩)]))) defs

mutual
/-- Embeds `SmlSchemaLoader.loadDefinitions`: `EnumType`, `Struct`,
`Attribute`, then `Element` children, in that order, added to the current
scope; `ancestors` are the enclosing scopes, innermost first.  The `fuel`
argument bounds the nesting depth of the input tree (the source recursion
is structural on the tree). -/
def SmlSchemaLoader.loadDefinitions : Nat → SmlElement → SsDefinitions → List SsDefinitions →
    Except String SsDefinitions
  | 0, _, _, _ => .error "Out of fuel"
  | n + 1, sElement, defs, ancestors => do
    let defs ← (sElement.elementsNamed "EnumType").foldlM
      (fun defs e => SmlSchemaLoader.loadEnumTypeDef e defs) defs
    let defs ← SmlSchemaLoader.loadStructDefsLoop (sElement.elementsNamed "Struct") defs ancestors
    let defs ← SmlSchemaLoader.loadAttributeDefsLoop (sElement.elementsNamed "Attribute") defs ancestors
    SmlSchemaLoader.loadElementDefList n (sElement.elementsNamed "Element") defs ancestors

/-- Embeds the `Element` loop of `SmlSchemaLoader.loadDefinitions`: each
definition is registered (duplicate check, placeholder visible to lookups
during its own load) and then populated by `loadElementDef`. -/
def SmlSchemaLoader.loadElementDefList : Nat → List SmlElement → SsDefinitions →
    List SsDefinitions → Except String SsDefinitions
  | 0, _, _, _ => .error "Out of fuel"
  | _ + 1, [], defs, _ => .ok defs
  | n + 1, sElementDef :: rest, defs, ancestors => do
    let nameAttr ← sElementDef.requiredAttribute "Name"
    let name ← nameAttr.asString
    if (assocGet defs.elementDefs name).isSome then
      .error ("ElementDef \"" ++ name ++ "\" already exists in " ++ defs.selfDescription)
    else do
      let placeholder : SsElementDef := .mk name (SsDefinitions.empty (some name)) none
      let defs1 := defs.setElementDefs (defs.elementDefs ++ [(name, placeholder)])
      let elementDef ← SmlSchemaLoader.loadElementDef n sElementDef name (defs1 :: ancestors)
      let defs2 := defs1.setElementDefs (assocSet defs1.elementDefs name elementDef)
      SmlSchemaLoader.loadElementDefList n rest defs2 ancestors

/-- Embeds `SmlSchemaLoader.loadElementDef`: optional nested `Definitions`
scope, then at most one of `UnorderedContent`/`ListContent`
(`ListContent` fails as unimplemented); unordered content resolves child
elements and declared attributes through the element's scope chain, and
three-valued attribute entries declare inline attribute definitions. -/
def SmlSchemaLoader.loadElementDef : Nat → SmlElement → String → List SsDefinitions →
    Except String SsElementDef
  | 0, _, _, _ => .error "Out of fuel"
  | n + 1, sElementDef, name, parentChain => do
    sElementDef.assureElementNames ["Definitions", "UnorderedContent", "ListContent"]
    sElementDef.assureAttributeNames ["Name"]
    let own0 := SsDefinitions.empty (some name)
    let sDefinitionsElement ← sElementDef.optionalElement "Definitions"
    let own ←
      match sDefinitionsElement with
      | some sDefs => do
        sDefs.assureElementNames ["EnumType", "Struct", "Attribute", "Element"]
        sDefs.assureNoAttributes
        SmlSchemaLoader.loadDefinitions n sDefs own0 parentChain
      | none => pure own0
    sElementDef.assureChoice ["UnorderedContent", "ListContent"] true
    if sElementDef.hasElement "ListContent" then .error "Todo"
    else if sElementDef.hasElement "UnorderedContent" then do
      let sUnorderedContentElement ← sElementDef.optionalElement "UnorderedContent"
      match sUnorderedContentElement with
      | none => .error "Todo"
      | some sUnorderedContent => do
        let elems ← (sUnorderedContent.attributesNamed "Element").foldlM
          (fun elems sElementAttribute => do
            sElementAttribute.assureValueCount 2
            let elementName ← sElementAttribute.getString 0
            let occurrence ← SmlSchemaLoader.getOccurrence sElementAttribute 1
            SsUnorderedContent.addElement name elems (own :: parentChain) elementName occurrence)
          ([] : List (String × SsUnorderedElement))
        let attrs ← (sUnorderedContent.attributesNamed "Attribute").foldlM
          (fun attrs sAttributeAttribute => do
            sAttributeAttribute.assureValueCountMinMax 2 3
            let attributeName ← sAttributeAttribute.getString 0
            let occurrence ← SmlSchemaLoader.getOccurrence sAttributeAttribute 1
            if sAttributeAttribute.valueCount == 2 then
              SsUnorderedContent.addAttribute name attrs (own :: parentChain) attributeName occurrence
            else do
              let dataTypeStr ← sAttributeAttribute.getString 2
              let dataType ← SmlSchemaLoader.loadDataType dataTypeStr (own :: parentChain)
              let inlineAttributeDef : SsAttributeDef := ⟨attributeName, some dataType⟩
              SsUnorderedContent.addInlineAttribute name attrs inlineAttributeDef occurrence)
          ([] : List (String × SsUnorderedAttribute))
        pure (SsElementDef.mk name own (some (.unordered elems attrs)))
    else pure (SsElementDef.mk name own none)
end

/-- Embeds `SmlSchemaLoader.parse`: fixed root grammar, definitions load,
root-element resolution (explicit by name, or the default-root rule), with
the top-level catch wrapping any failure in a single contextual error.
The external text-level parse of `sml.js` is modelled (from the spec) as
delivering the document's root node unchanged. -/
def SmlSchemaLoader.parse (fuel : Nat) (sRootElement : SmlElement) : Except String SmlSchema :=
  match (do
    sRootElement.assureName "Schema"
    sRootElement.assureElementNames ["EnumType", "Struct", "Attribute", "Element"]
    sRootElement.assureAttributeNames ["RootElement"]
    let defs ← SmlSchemaLoader.loadDefinitions fuel sRootElement (SsDefinitions.empty none) []
    let schema : SmlSchema := ⟨defs, .jsNull⟩
    let sRootElementAttribute ← sRootElement.optionalAttribute "RootElement"
    match sRootElementAttribute with
    | some a => do
      let rootElementName ← a.asString
      schema.setRootElementByName rootElementName
    | none => schema.setRootElementDefault : Except String SmlSchema) with
  | .ok s => .ok s
  | .error e => .error ("Could not parse schema because Error: " ++ e)

/-! ## Schema serializer -/

/-- Embeds `SmlSchemaSerializer.serializeValueTypeDef`: only the enum
variant is serializable (node named `EnumTypeDef` with `Name` and `Values`
attributes); other variants fail as unimplemented. -/
def SmlSchemaSerializer.serializeValueTypeDef (valueTypeDef : SsValueTypeDef) :
    Except String SmlElement :=
  match valueTypeDef with
  | .enum name values => .ok (SmlElement.mk "EnumTypeDef" [⟨"Name", [name]⟩, ⟨"Values", values⟩] [])
  | _ => .error "Todo"

/-- Embeds `SmlSchemaSerializer.serializeStructDef`: node named
`StructDef` with a `Name` attribute and one three-valued `Value` attribute
per struct value. -/
def SmlSchemaSerializer.serializeStructDef (structDef : SsStructDef) :
    Except String SmlElement := do
  let valueAttrs ← structDef.values.foldlM
    (fun acc value => do
      let typeStr ← value.getTypeString
      pure (acc ++ [(⟨"Value", [value.name, if value.optional then "Optional" else "Required", typeStr]⟩ : SmlAttributeNode)]))
    ([] : List SmlAttributeNode)
  pure (SmlElement.mk "StructDef" ((⟨"Name", [structDef.name]⟩ : SmlAttributeNode) :: valueAttrs) [])

/-- Embeds `SmlSchemaSerializer.serializeOccurrence`: the four named
occurrence labels; any other range fails. -/
def SmlSchemaSerializer.serializeOccurrence (occurrence : SsRange) : Except String String :=
  if occurrence.isRequired then .ok "Required"
  else if occurrence.isOptional then .ok "Optional"
  else if occurrence.isRepeatedPlus then .ok "Repeated+"
  else if occurrence.isRepeatedStar then .ok "Repeated*"
  else .error "Invalid occurrence"

/-- Embeds `SmlSchemaSerializer.serializeAttributeDef`: node named
`AttributeDef` with `Name` and the rendered `DataType`. -/
def SmlSchemaSerializer.serializeAttributeDef (attributeDef : SsAttributeDef) :
    Except String SmlElement := do
  let dataType ← attributeDef.getDataType
  let dataTypeStr ← dataType.toString
  pure (SmlElement.mk "AttributeDef" [⟨"Name", [attributeDef.name]⟩, ⟨"DataType", [dataTypeStr]⟩] [])

mutual
/-- Embeds `SmlSchemaSerializer.serializeDefinitions`: value types, then
structs, then attributes, then elements, in declaration order, as the
child nodes of the given scope.  `fuel` bounds the scope-nesting depth
(the source recursion is structural on the model). -/
def SmlSchemaSerializer.serializeDefinitions : Nat → SsDefinitions → Except String (List SmlElement)
  | 0, _ => .error "Out of fuel"
  | n + 1, defs => do
    let children ← defs.valueTypeDefs.foldlM
      (fun acc (entry : String × SsValueTypeDef) => do
        let c ← SmlSchemaSerializer.serializeValueTypeDef entry.2
        pure (acc ++ [c])) ([] : List SmlElement)
    let children ← defs.structDefs.foldlM
      (fun acc (entry : String × SsStructDef) => do
        let c ← SmlSchemaSerializer.serializeStructDef entry.2
        pure (acc ++ [c])) children
    let children ← defs.attributeDefs.foldlM
      (fun acc (entry : String × SsAttributeDef) => do
        let c ← SmlSchemaSerializer.serializeAttributeDef entry.2
        pure (acc ++ [c])) children
    SmlSchemaSerializer.serializeElementDefList n defs.elementDefs children

def SmlSchemaSerializer.serializeElementDefList : Nat → List (String × SsElementDef) →
    List SmlElement → Except String (List SmlElement)
  | 0, _, _ => .error "Out of fuel"
  | _ + 1, [], acc => .ok acc
  | n + 1, entry :: rest, acc => do
    let c ← SmlSchemaSerializer.serializeElementDef n entry.2
    SmlSchemaSerializer.serializeElementDefList n rest (acc ++ [c])

/-- Embeds `SmlSchemaSerializer.serializeElementDef`: node named
`ElementDef` with a `Name` attribute, the serialized nested scope as child
nodes, and — directly on this node — one `Attribute` entry per unordered
attribute (three-valued when inline) followed by one `Element` entry per
unordered element; non-unordered content fails as unimplemented. -/
def SmlSchemaSerializer.serializeElementDef : Nat → SsElementDef → Except String SmlElement
  | 0, _ => .error "Out of fuel"
  | n + 1, elementDef => do
    let children ← SmlSchemaSerializer.serializeDefinitions n elementDef.definitions
    let contentAttrs ←
      match elementDef.content with
      | none => pure ([] : List SmlAttributeNode)
      | some (.unordered elems attrs) => do
        let acc ← attrs.foldlM
          (fun acc (entry : String × SsUnorderedAttribute) => do
            let unorderedAttribute := entry.2
            let occurrenceStr ← SmlSchemaSerializer.serializeOccurrence unorderedAttribute.occurrence
            let values := [unorderedAttribute.attributeDef.name, occurrenceStr]
            let values ←
              if unorderedAttribute.inline then do
                let dataType ← unorderedAttribute.attributeDef.getDataType
                let dataTypeStr ← dataType.toString
                pure (values ++ [dataTypeStr])
              else pure values
            pure (acc ++ [(⟨"Attribute", values⟩ : SmlAttributeNode)]))
          ([] : List SmlAttributeNode)
        elems.foldlM
          (fun acc (entry : String × SsUnorderedElement) => do
            let unorderedElement := entry.2
            let occurrenceStr ← SmlSchemaSerializer.serializeOccurrence unorderedElement.occurrence
            pure (acc ++ [(⟨"Element", [unorderedElement.elementDef.name, occurrenceStr]⟩ : SmlAttributeNode)]))
          acc
      | some .ordered => .error "Todo"
    pure (SmlElement.mk "ElementDef" ((⟨"Name", [elementDef.name]⟩ : SmlAttributeNode) :: contentAttrs) children)
end

/-- Embeds `SmlSchemaSerializer.serialize`: a root node named `Schema`
holding the serialized root scope; the `RootElement` attribute is emitted
only when more than one top-level element definition exists. -/
def SmlSchemaSerializer.serialize (fuel : Nat) (schema : SmlSchema) : Except String SmlElement := do
  let children ← SmlSchemaSerializer.serializeDefinitions fuel schema.definitions
  let attrs ←
    if schema.definitions.elementDefs.length > 1 then do
      let root ← schema.getRootElement
      match root with
      | some e => pure [(⟨"RootElement", [e.name]⟩ : SmlAttributeNode)]
      | none => Except.error "TypeError: Cannot read properties of undefined"
    else pure ([] : List SmlAttributeNode)
  pure (SmlElement.mk "Schema" attrs children)

/-! ## Name allocator (`TsLookup` / `TsUtil`) -/

def TsUtil.keywords : List String := ["public", "internal"]

/-- Embeds `TsUtil.getIdentifier`: recases the first character per the
case-convention flag and prefixes an underscore when the result is a
reserved keyword. -/
def TsUtil.getIdentifier (str : String) (startUpperCase : Bool) : String :=
  let firstChar := jsSubstring str 0 1
  let str := (if startUpperCase then jsToUpper firstChar else jsToLower firstChar) ++ jsSubstring str 1 str.length
  if TsUtil.keywords.contains str then "_" ++ str else str

/-- `Map.set` for object-keyed maps (`source` keys compared by identity;
identities are abstracted as the key type `σ`). -/
def jsMapSet {σ μ : Type} [DecidableEq σ] (m : List (σ × μ)) (k : σ) (v : μ) : List (σ × μ) :=
  match m with
  | [] => [(k, v)]
  | (k', v') :: rest => if k' = k then (k', v) :: rest else (k', v') :: jsMapSet rest k v

/-- Embeds the `TsLookup` state: the list of assigned names (in assignment
order), the two object-keyed maps, and the case-convention flag. -/
structure TsLookup (σ μ : Type) : Type where
  names : List String
  nameLookup : List (σ × String)
  lookup : List (σ × μ)
  startUpperCase : Bool

/-- A freshly constructed `TsLookup`. -/
def TsLookup.init (σ μ : Type) (startUpperCase : Bool) : TsLookup σ μ :=
  ⟨[], [], [], startUpperCase⟩

/-- The suffix-probing loop of `generateName`: try `name ++ i` for
`i = 2..99` in order (98 probes), returning the first candidate not yet in
`names`; fail when all are taken.  `fuel` counts the remaining probes. -/
def TsLookup.genSuffix (names : List String) (name : String) : Nat → Nat → Except String String
  | 0, _ => .error "Too many identical names"
  | fuel + 1, i =>
    let newName := name ++ Nat.repr i
    if names.contains newName then TsLookup.genSuffix names name fuel (i + 1)
    else .ok newName

/-- Embeds `TsLookup.generateName`: reject the empty name, normalize via
`getIdentifier`, return the normalized base when unused, otherwise probe
suffixes `2..99`. -/
def TsLookup.generateName {σ μ : Type} (t : TsLookup σ μ) (name : String) : Except String String :=
  if name.length = 0 then .error "Invalid name"
  else
    let name := TsUtil.getIdentifier name t.startUpperCase
    if !(t.names.contains name) then .ok name
    else TsLookup.genSuffix t.names name 98 2

/-- Embeds `TsLookup.add`: fails when the name was already assigned;
otherwise records the name and both associations. -/
def TsLookup.add {σ μ : Type} [DecidableEq σ] (t : TsLookup σ μ) (source : σ) (name : String)
    (mapped : μ) : Except String (TsLookup σ μ) :=
  if t.names.contains name then .error "Already contains name"
  else .ok { t with
    nameLookup := jsMapSet t.nameLookup source name
    lookup := jsMapSet t.lookup source mapped
    names := t.names ++ [name] }

/-- Embeds `TsLookup.get`. -/
def TsLookup.getMapped {σ μ : Type} [DecidableEq σ] (t : TsLookup σ μ) (source : σ) : Except String μ :=
  match (t.lookup.find? (·.1 = source)).map (·.2) with
  | some m => .ok m
  | none => .error "Does not contain source"

/-- Embeds `TsLookup.getName`. -/
def TsLookup.getName {σ μ : Type} [DecidableEq σ] (t : TsLookup σ μ) (source : σ) : Except String String :=
  match (t.nameLookup.find? (·.1 = source)).map (·.2) with
  | some n => .ok n
  | none => .error "Does not contain source"

/-- `k` successive allocations (`generateName` then `add`) of the same
base name in one allocator instance, with distinct sources; returns the
generated identifiers in order together with the final state. -/
def TsLookup.allocN (startUpperCase : Bool) (base : String) :
    Nat → Except String (List String × TsLookup Nat Nat)
  | 0 => .ok ([], TsLookup.init Nat Nat startUpperCase)
  | k + 1 => do
    let (acc, t) ← TsLookup.allocN startUpperCase base k
    let name ← t.generateName base
    let t ← t.add k name k
    pure (acc ++ [name], t)

/-- The identifier the `i`-th allocation (1-based) of a normalized base
name is expected to return: the base itself first, then the base with
suffixes `2..99`. -/
def TsLookup.cand (normalized : String) (i : Nat) : String :=
  if i = 1 then normalized else normalized ++ Nat.repr i

/-- The expected result list of the first `k` allocations of `base`. -/
def TsLookup.allocExpected (startUpperCase : Bool) (base : String) (k : Nat) : List String :=
  (List.range' 1 k).map (TsLookup.cand (TsUtil.getIdentifier base startUpperCase))

/-! ## Mutable-array model for the `values` getters

The `values` getters of `SsEnumTypeDef` and `SsStructDef` return
`[...this._values]`.  To state the framing property this requires a
mutable-heap view: array references are heap indices, the definition
object stores the reference of its private array, and the getter allocates
a fresh array holding a copy of the contents. -/

/-- A heap of JavaScript arrays with element type `α`; a reference is an
index into the heap. -/
abbrev JsHeap (α : Type) : Type := List (List α)

/-- Dereference an array (out-of-range reads never occur in the modelled
code). -/
def JsHeap.read {α : Type} (h : JsHeap α) (r : Nat) : List α :=
  (h.get? r).getD []

/-- Allocate a fresh array, returning the extended heap and the new
reference. -/
def JsHeap.alloc {α : Type} (h : JsHeap α) (v : List α) : JsHeap α × Nat :=
  (h ++ [v], h.length)

/-- Overwrite the array behind a reference (models arbitrary mutation of
an array the caller holds). -/
def JsHeap.write {α : Type} (h : JsHeap α) (r : Nat) (v : List α) : JsHeap α :=
  h.set r v

/-- `SsEnumTypeDef` under the heap view: the private `_values` array is
held by reference. -/
structure SsEnumTypeDefObj : Type where
  name : String
  valuesRef : Nat

/-- Embeds the `SsEnumTypeDef.values` getter: `[...this._values]`
allocates a fresh array holding a copy of the stored contents and returns
its reference. -/
def SsEnumTypeDefObj.valuesGet (d : SsEnumTypeDefObj) (h : JsHeap String) : JsHeap String × Nat :=
  h.alloc (h.read d.valuesRef)

/-- `SsStructDef` under the heap view. -/
structure SsStructDefObj : Type where
  name : String
  valuesRef : Nat

/-- Embeds the `SsStructDef.values` getter (`[...this._values]`). -/
def SsStructDefObj.valuesGet (d : SsStructDefObj) (h : JsHeap SsStructValue) :
    JsHeap SsStructValue × Nat :=
  h.alloc (h.read d.valuesRef)

/-- Embeds the `SsStructDef.hasOptional` getter under the heap view. -/
def SsStructDefObj.hasOptionalH (d : SsStructDefObj) (h : JsHeap SsStructValue) : Bool :=
  ((h.read d.valuesRef).find? (·.optional)).isSome

/-! ## Concrete fixtures used by the evaluation theorems -/

/-- Root scope holding one enum type, as produced by the builder API
(`addEnum`). -/
def exEnumDefs : SsDefinitions :=
  .mk none [("Color", .enum "Color" ["Red", "Green", "Blue"])] [] [] []

/-- The node tree the serializer emits for `exEnumDefs`: note the child
node name `EnumTypeDef`. -/
def exEnumTree : SmlElement :=
  .mk "Schema" [] [.mk "EnumTypeDef" [⟨"Name", ["Color"]⟩, ⟨"Values", ["Red", "Green", "Blue"]⟩] []]

/-- A `Schema` node with no definitions and no `RootElement` attribute. -/
def exSchemaZero : SmlElement := .mk "Schema" [] []

/-- A `Schema` node naming a root element that is never defined. -/
def exSchemaMissingRoot : SmlElement := .mk "Schema" [⟨"RootElement", ["Main"]⟩] []

/-- An `Element` definition node named `A` with empty unordered content. -/
def exElementA : SmlElement := .mk "Element" [⟨"Name", ["A"]⟩] [.mk "UnorderedContent" [] []]

/-- An `Element` definition node named `B` with empty unordered content. -/
def exElementB : SmlElement := .mk "Element" [⟨"Name", ["B"]⟩] [.mk "UnorderedContent" [] []]

/-- Two top-level element definitions, no `RootElement` attribute. -/
def exSchemaTwo : SmlElement := .mk "Schema" [] [exElementA, exElementB]

/-- Exactly one top-level element definition, no `RootElement` attribute. -/
def exSchemaOne : SmlElement := .mk "Schema" [] [exElementA]

/-- Exactly one top-level element definition, explicitly named as root. -/
def exSchemaOneNamed : SmlElement := .mk "Schema" [⟨"RootElement", ["A"]⟩] [exElementA]

/-- The loaded model of element `A`. -/
def exElementDefA : SsElementDef :=
  .mk "A" (SsDefinitions.empty (some "A")) (some (.unordered [] []))

/-- The loaded root scope containing only element `A`. -/
def exDefsOneA : SsDefinitions := .mk none [] [] [] [("A", exElementDefA)]

/-! ## Claim theorems: serializer/loader round trip and root resolution -/

/-- C1: the claim asserts that serializing an API-built schema and
re-loading the result yields an equivalent model.  In the code the
serializer emits definition nodes named `EnumTypeDef` / `StructDef` /
`AttributeDef` / `ElementDef`, while the loader's grammar only admits
children named `EnumType` / `Struct` / `Attribute` / `Element`; re-loading
therefore fails for every schema with at least one definition.  Shown here
on a schema holding a single enum type built via `addEnum`: serialization
succeeds, and re-loading its output is rejected at the root grammar
check. -/
theorem serialize_then_reload_fails_on_enum_schema :
    SsDefinitions.addEnum (SsDefinitions.empty none) "Color" ["Red", "Green", "Blue"] = .ok exEnumDefs ∧
    SmlSchemaSerializer.serialize 10 ⟨exEnumDefs, .jsNull⟩ = .ok exEnumTree ∧
    SmlSchemaLoader.parse 10 exEnumTree =
      .error "Could not parse schema because Error: Element with name \"EnumTypeDef\" is not allowed" :=
  ⟨rfl, rfl, rfl⟩

/-- C2: root-element resolution after loading.  With `RootElement` naming
an undefined element the load fails, with more than one top-level element
and no `RootElement` it fails as ambiguous, and with exactly one that
element becomes the root (defaulted or explicitly named).  However, with
zero top-level element definitions and no `RootElement` the load
*succeeds*: `setRootElementDefault` stores `values[0]` of an empty list
(the JavaScript `undefined`), which the `=== null` guard does not catch —
contradicting the claim's undefined-root failure. -/
theorem parse_root_resolution_cases :
    SmlSchemaLoader.parse 10 exSchemaZero = .ok ⟨SsDefinitions.empty none, .jsUndef⟩ ∧
    SmlSchemaLoader.parse 10 exSchemaMissingRoot =
      .error "Could not parse schema because Error: ElementDef \"Main\" not defined in schema" ∧
    SmlSchemaLoader.parse 10 exSchemaTwo =
      .error "Could not parse schema because Error: Cannot set default root element because the schema contains multiple ElementDefs at root level" ∧
    SmlSchemaLoader.parse 10 exSchemaOne = .ok ⟨exDefsOneA, .set exElementDefA⟩ ∧
    SmlSchemaLoader.parse 10 exSchemaOneNamed = .ok ⟨exDefsOneA, .set exElementDefA⟩ :=
  ⟨rfl, rfl, rfl, rfl, rfl⟩

/-- C3: the claim asserts that every parser-accepted data type renders to
canonical text that re-parses to an equal type.  The data-type string
`Base64` is accepted by the parser (predefined-type resolution), but
rendering the resulting type fails because the predefined-type renderer
has no case for `Base64` — so the render-then-reparse round trip is
impossible for it.  A representative ordinary type is shown to round-trip
through render after parse. -/
theorem base64_datatype_parse_render_mismatch :
    SmlSchemaLoader.loadDataType "Base64" [SsDefinitions.empty none] =
      .ok ⟨some .Base64, none, none, false, none, false⟩ ∧
    (SmlSchemaLoader.loadDataType "Base64" [SsDefinitions.empty none] >>= SsAttributeDataType.toString) =
      .error "Invalid predefined type string" ∧
    (SmlSchemaLoader.loadDataType "Int?[2..5]?" [SsDefinitions.empty none] >>= SsAttributeDataType.toString) =
      .ok "Int?[2..5]?" ∧
    (SmlSchemaLoader.loadDataType "uint" [SsDefinitions.empty none] >>= SsAttributeDataType.toString) =
      .ok "UInt" :=
  ⟨rfl, rfl, rfl, rfl⟩

/-- C7: the predefined set is exactly the nine kinds and name lookup is
case-insensitive for all nine, but rendering fails for `Base64` (the
renderer's `switch` omits it), so lookup-after-render is not the identity
on all nine kinds; it is on the other eight. -/
theorem predefined_base64_render_bug :
    (∀ t : SsPredefinedType,
      t ∈ ([.Bool, .Int, .UInt, .Number, .String, .Date, .Time, .Base64, .DateTime] : List SsPredefinedType)) ∧
    SsPredefinedTypeUtil.getPredefinedTypeOrNull "base64" = some .Base64 ∧
    SsPredefinedTypeUtil.getPredefinedTypeOrNull "BASE64" = some .Base64 ∧
    SsPredefinedTypeUtil.getPredefinedTypeOrNull "Base64" = some .Base64 ∧
    SsPredefinedTypeUtil.getPredefinedTypeString .Base64 = .error "Invalid predefined type string" ∧
    (∀ t : SsPredefinedType, t ≠ .Base64 →
      ∃ s, SsPredefinedTypeUtil.getPredefinedTypeString t = .ok s ∧
        SsPredefinedTypeUtil.getPredefinedTypeOrNull s = some t ∧
        SsPredefinedTypeUtil.getPredefinedTypeOrNull (jsToLower s) = some t ∧
        SsPredefinedTypeUtil.getPredefinedTypeOrNull (jsToUpper s) = some t) := by
  refine ⟨fun t => by cases t <;> simp, rfl, rfl, rfl, rfl, fun t ht => ?_⟩
  cases t
  case Base64 => exact absurd rfl ht
  case Bool => exact ⟨"Bool", rfl, rfl, rfl, rfl⟩
  case Int => exact ⟨"Int", rfl, rfl, rfl, rfl⟩
  case UInt => exact ⟨"UInt", rfl, rfl, rfl, rfl⟩
  case Number => exact ⟨"Number", rfl, rfl, rfl, rfl⟩
  case String => exact ⟨"String", rfl, rfl, rfl, rfl⟩
  case Date => exact ⟨"Date", rfl, rfl, rfl, rfl⟩
  case Time => exact ⟨"Time", rfl, rfl, rfl, rfl⟩
  case DateTime => exact ⟨"DateTime", rfl, rfl, rfl, rfl⟩

/-- C7 witness: the render-then-lookup identity applied at the concrete
kind `Int`. -/
theorem predefined_base64_render_bug_witness :
    ∃ s, SsPredefinedTypeUtil.getPredefinedTypeString .Int = .ok s ∧
      SsPredefinedTypeUtil.getPredefinedTypeOrNull s = some .Int ∧
      SsPredefinedTypeUtil.getPredefinedTypeOrNull (jsToLower s) = some .Int ∧
      SsPredefinedTypeUtil.getPredefinedTypeOrNull (jsToUpper s) = some .Int :=
  predefined_base64_render_bug.2.2.2.2.2 .Int (by decide)

/-- C6 counterexample: the claim asserts exactly one of the five derived
predicates holds for every named-constructor range, but `required()` (the
range `(1, 1)`) satisfies both `isRequired` and `isFixed`. -/
theorem ssrange_required_also_isfixed :
    SsRange.required.isRequired = true ∧ SsRange.required.isFixed = true ∧
    SsRange.required.predCount = 2 := by
  decide

/-- C6 (amended): exactly one of the five predicates holds for
`optional()`, `repeatedPlus()`, `repeatedStar()`, and `fixed(n)` with
`n ≠ 1`; for `required()` and `fixed(1)` exactly the two predicates
`isRequired` and `isFixed` hold. -/
theorem ssrange_named_constructor_predicates :
    SsRange.optional.predCount = 1 ∧ SsRange.optional.isOptional = true ∧
    SsRange.repeatedPlus.predCount = 1 ∧ SsRange.repeatedPlus.isRepeatedPlus = true ∧
    SsRange.repeatedStar.predCount = 1 ∧ SsRange.repeatedStar.isRepeatedStar = true ∧
    SsRange.required.predCount = 2 ∧ SsRange.required.isRequired = true ∧
    SsRange.required.isFixed = true ∧
    (∀ n : Int, (SsRange.fixed (.int n)).isFixed = true) ∧
    (∀ n : Int, (SsRange.fixed (.int n)).isRequired = decide (n = 1)) ∧
    (∀ n : Int, (SsRange.fixed (.int n)).predCount = if n = 1 then 2 else 1) := by
  refine ⟨by decide, by decide, by decide, by decide, by decide, by decide, by decide,
    by decide, by decide, ?_, ?_, ?_⟩
  · intro n
    simp [SsRange.fixed, SsRange.isFixed, JsNum.seq]
  · intro n
    by_cases h : n = 1 <;>
      simp [SsRange.fixed, SsRange.isRequired, JsNum.seq, h]
  · intro n
    by_cases h : n = 1 <;>
      simp [SsRange.fixed, SsRange.predCount, SsRange.isRequired, SsRange.isOptional,
        SsRange.isRepeatedPlus, SsRange.isRepeatedStar, SsRange.isFixed, JsNum.seq, h,
        List.count_cons]

/-! ## Struct trailing-optional invariant: supporting lemmas -/

theorem getLast?_mem_list {α : Type} {l : List α} {a : α} (h : l.getLast? = some a) : a ∈ l := by
  obtain ⟨hne, rfl⟩ := List.mem_getLast?_eq_getLast h
  exact List.getLast_mem hne

theorem trailingOptionalOk_append_optional {l : List SsStructValue} {v : SsStructValue}
    (hl : trailingOptionalOk l = true) (hv : v.optional = true) :
    trailingOptionalOk (l ++ [v]) = true := by
  induction l with
  | nil => simp [trailingOptionalOk, hv]
  | cons w rest ih =>
    by_cases hw : w.optional
    · simp only [trailingOptionalOk, hw, if_true] at hl
      simp only [List.cons_append, trailingOptionalOk, hw, if_true, List.all_append]
      simp_all
    · simp only [trailingOptionalOk, hw, if_false, Bool.false_eq_true] at hl
      simp only [List.cons_append, trailingOptionalOk, hw, if_false, Bool.false_eq_true]
      exact ih hl

theorem trailing_append_of_all_not_optional {l : List SsStructValue} {v : SsStructValue}
    (h : l.all (fun x => !x.optional) = true) :
    trailingOptionalOk (l ++ [v]) = true := by
  induction l with
  | nil =>
    by_cases hv : v.optional <;> simp [trailingOptionalOk, hv]
  | cons w rest ih =>
    simp only [List.all_cons, Bool.and_eq_true, Bool.not_eq_true'] at h
    simp only [List.cons_append, trailingOptionalOk, h.1, Bool.false_eq_true, if_false]
    exact ih h.2

theorem all_not_optional_of_trailing_last {l : List SsStructValue} {lv : SsStructValue}
    (hl : trailingOptionalOk l = true) (hlast : l.getLast? = some lv) (hlv : lv.optional = false) :
    l.all (fun v => !v.optional) = true := by
  induction l with
  | nil => simp
  | cons w rest ih =>
    cases rest with
    | nil =>
      simp only [List.getLast?_singleton, Option.some.injEq] at hlast
      subst hlast
      simp [hlv]
    | cons a t =>
      have hlast' : (a :: t).getLast? = some lv := by
        rwa [List.getLast?_cons_cons] at hlast
      by_cases hw : w.optional
      · exfalso
        simp only [trailingOptionalOk, hw, if_true, List.all_eq_true] at hl
        have hmem : lv ∈ (a :: t) := getLast?_mem_list hlast'
        have := hl lv hmem
        simp [hlv] at this
      · simp only [trailingOptionalOk, hw, Bool.false_eq_true, if_false] at hl
        have := ih hl hlast'
        simp only [List.all_cons, Bool.and_eq_true, Bool.not_eq_true']
        exact ⟨Bool.eq_false_iff.mpr hw, by simpa using this⟩

theorem getLast_optional_of_trailing_hasOptional {l : List SsStructValue}
    (hl : trailingOptionalOk l = true) (h : (l.find? (·.optional)).isSome = true) :
    ∃ lv, l.getLast? = some lv ∧ lv.optional = true := by
  induction l with
  | nil => simp at h
  | cons w rest ih =>
    by_cases hw : w.optional
    · simp only [trailingOptionalOk, hw, if_true, List.all_eq_true] at hl
      cases rest with
      | nil => exact ⟨w, by simp, hw⟩
      | cons a t =>
        have hne : (a :: t) ≠ [] := by simp
        refine ⟨(a :: t).getLast hne, ?_, ?_⟩
        · rw [List.getLast?_cons_cons]
          exact List.getLast?_eq_getLast_of_ne_nil hne
        · exact hl _ (List.getLast_mem hne)
    · simp only [trailingOptionalOk, hw, Bool.false_eq_true, if_false] at hl
      have h' : (rest.find? (·.optional)).isSome = true := by
        rw [List.find?_cons] at h
        simpa [hw] using h
      obtain ⟨lv, h1, h2⟩ := ih hl h'
      refine ⟨lv, ?_, h2⟩
      cases rest with
      | nil => simp at h1
      | cons a t => rwa [List.getLast?_cons_cons]

theorem addValue_eq_of_getLast_some {s : SsStructDef} {lv : SsStructValue}
    (hl : s.values.getLast? = some lv) (n : String) (opt : Bool)
    (pt : Option SsPredefinedType) (vt : Option SsValueTypeDef) (nb : Bool) :
    s.addValue n opt pt vt nb =
      if (!opt && lv.optional) = true then
        .error "Value is not optional but value before was optional"
      else .ok { s with values := s.values ++ [⟨n, opt, pt, vt, nb⟩] } := by
  unfold SsStructDef.addValue
  rw [hl]

theorem addValue_eq_of_getLast_none {s : SsStructDef}
    (hl : s.values.getLast? = none) (n : String) (opt : Bool)
    (pt : Option SsPredefinedType) (vt : Option SsValueTypeDef) (nb : Bool) :
    s.addValue n opt pt vt nb = .ok { s with values := s.values ++ [⟨n, opt, pt, vt, nb⟩] } := by
  unfold SsStructDef.addValue
  rw [hl]

theorem addValue_optional_ok (s : SsStructDef) (n : String) (pt : Option SsPredefinedType)
    (vt : Option SsValueTypeDef) (nb : Bool) :
    s.addValue n true pt vt nb = .ok { s with values := s.values ++ [⟨n, true, pt, vt, nb⟩] } := by
  cases hl : s.values.getLast? with
  | none => exact addValue_eq_of_getLast_none hl n true pt vt nb
  | some lv => rw [addValue_eq_of_getLast_some hl]; simp

theorem addValue_required_ok_of_all_not_optional {s : SsStructDef}
    (hs : s.values.all (fun v => !v.optional) = true) (n : String)
    (pt : Option SsPredefinedType) (vt : Option SsValueTypeDef) (nb : Bool) :
    s.addValue n false pt vt nb = .ok { s with values := s.values ++ [⟨n, false, pt, vt, nb⟩] } := by
  cases hl : s.values.getLast? with
  | none => exact addValue_eq_of_getLast_none hl n false pt vt nb
  | some lv =>
    have hmem := getLast?_mem_list hl
    have hlv : lv.optional = false := by
      simp only [List.all_eq_true] at hs
      simpa using hs lv hmem
    rw [addValue_eq_of_getLast_some hl]
    simp [hlv]

theorem addValue_preserves_trailing {s : SsStructDef} {n : String} {opt : Bool}
    {pt : Option SsPredefinedType} {vt : Option SsValueTypeDef} {nb : Bool} {s' : SsStructDef}
    (hs : trailingOptionalOk s.values = true) (h : s.addValue n opt pt vt nb = .ok s') :
    trailingOptionalOk s'.values = true := by
  cases hl : s.values.getLast? with
  | none =>
    rw [addValue_eq_of_getLast_none hl] at h
    simp only [Except.ok.injEq] at h
    subst h
    have hnil : s.values = [] := List.getLast?_eq_none_iff.mp hl
    by_cases hv : opt <;> simp [hnil, trailingOptionalOk, hv]
  | some lv =>
    rw [addValue_eq_of_getLast_some hl] at h
    by_cases hc : (!opt && lv.optional) = true
    · rw [if_pos hc] at h
      exact absurd h (by simp)
    · rw [if_neg hc] at h
      simp only [Except.ok.injEq] at h
      subst h
      cases opt with
      | true => exact trailingOptionalOk_append_optional hs rfl
      | false =>
        have hlv : lv.optional = false := by simpa using hc
        exact trailing_append_of_all_not_optional
          (all_not_optional_of_trailing_last hs hl hlv)

theorem addValue_required_fails_of_hasOptional {s : SsStructDef}
    (hshape : trailingOptionalOk s.values = true) (hopt : s.hasOptional = true)
    (n : String) (pt : Option SsPredefinedType) (vt : Option SsValueTypeDef) (nb : Bool) :
    s.addValue n false pt vt nb = .error "Value is not optional but value before was optional" := by
  obtain ⟨lv, hlast, hlv⟩ := getLast_optional_of_trailing_hasOptional hshape hopt
  rw [addValue_eq_of_getLast_some hlast]
  simp [hlv]

theorem runAdds_preserves_trailing {ops : List SsAddOp} :
    ∀ {s s' : SsStructDef}, trailingOptionalOk s.values = true → s.runAdds ops = .ok s' →
      trailingOptionalOk s'.values = true := by
  induction ops with
  | nil =>
    intro s s' hs h
    simp only [SsStructDef.runAdds, List.foldlM_nil] at h
    cases h
    exact hs
  | cons op rest ih =>
    intro s s' hs h
    simp only [SsStructDef.runAdds, List.foldlM_cons] at h
    cases ha : s.addValue op.name op.optional op.predefinedType op.valueTypeDef op.nullable with
    | error e => rw [ha] at h; simp [Bind.bind, Except.bind] at h
    | ok s1 =>
      rw [ha] at h
      exact ih (addValue_preserves_trailing hs ha) h

theorem runAdds_all_not_optional {reqs : List SsAddOp} :
    ∀ {s : SsStructDef}, s.values.all (fun v => !v.optional) = true →
      reqs.all (fun o => !o.optional) = true →
      ∃ s', s.runAdds reqs = .ok s' ∧ s'.values.all (fun v => !v.optional) = true := by
  induction reqs with
  | nil =>
    intro s hs _
    exact ⟨s, rfl, hs⟩
  | cons op rest ih =>
    intro s hs hops
    simp only [List.all_cons, Bool.and_eq_true, Bool.not_eq_true'] at hops
    obtain ⟨hop, hrest⟩ := hops
    have hstep := addValue_required_ok_of_all_not_optional hs op.name op.predefinedType op.valueTypeDef op.nullable
    have hall : (({ s with values := s.values ++ [⟨op.name, false, op.predefinedType, op.valueTypeDef, op.nullable⟩] } : SsStructDef)).values.all
        (fun v => !v.optional) = true := by
      simp [hs]
    obtain ⟨s', h1, h2⟩ := ih hall hrest
    refine ⟨s', ?_, h2⟩
    simp only [SsStructDef.runAdds, List.foldlM_cons]
    rw [hop, hstep]
    simpa [SsStructDef.runAdds, Except.bind] using h1

theorem runAdds_all_optional {opts : List SsAddOp} :
    ∀ {s : SsStructDef}, opts.all (·.optional) = true → ∃ s', s.runAdds opts = .ok s' := by
  induction opts with
  | nil => intro s _; exact ⟨s, rfl⟩
  | cons op rest ih =>
    intro s hops
    simp only [List.all_cons, Bool.and_eq_true] at hops
    obtain ⟨hop, hrest⟩ := hops
    obtain ⟨s', h1⟩ := ih (s := { s with values := s.values ++ [⟨op.name, true, op.predefinedType, op.valueTypeDef, op.nullable⟩] }) hrest
    refine ⟨s', ?_⟩
    simp only [SsStructDef.runAdds, List.foldlM_cons]
    rw [hop, addValue_optional_ok]
    simpa [SsStructDef.runAdds, Except.bind] using h1

/-- C4: for struct definitions satisfying the trailing-optional shape
(which every struct built through `addValue` does, by the first conjunct
applied from the empty struct): any successful operation sequence
preserves the shape; adding a required value when the struct already
contains an optional value always fails; and any sequence of required
values followed by optional values, starting from an empty struct, always
succeeds. -/
theorem structdef_trailing_optional_spec :
    (∀ (s : SsStructDef) (ops : List SsAddOp) (s' : SsStructDef),
      trailingOptionalOk s.values = true → s.runAdds ops = .ok s' →
      trailingOptionalOk s'.values = true) ∧
    (∀ (s : SsStructDef) (name : String) (pt : Option SsPredefinedType)
       (vt : Option SsValueTypeDef) (nullable : Bool),
      trailingOptionalOk s.values = true → s.hasOptional = true →
      s.addValue name false pt vt nullable =
        .error "Value is not optional but value before was optional") ∧
    (∀ (name : String) (reqs opts : List SsAddOp),
      reqs.all (fun o => !o.optional) = true → opts.all (·.optional) = true →
      ∃ s', SsStructDef.runAdds ⟨name, []⟩ (reqs ++ opts) = .ok s') := by
  refine ⟨?_, ?_, ?_⟩
  · intro s ops s' hs h
    exact runAdds_preserves_trailing hs h
  · intro s name pt vt nullable hshape hopt
    exact addValue_required_fails_of_hasOptional hshape hopt name pt vt nullable
  · intro name reqs opts hreqs hopts
    obtain ⟨s1, h1, _⟩ := runAdds_all_not_optional (s := ⟨name, []⟩) (by simp) hreqs
    obtain ⟨s2, h2⟩ := runAdds_all_optional (s := s1) hopts
    refine ⟨s2, ?_⟩
    unfold SsStructDef.runAdds
    rw [List.foldlM_append]
    unfold SsStructDef.runAdds at h1 h2
    rw [h1]
    simpa [Bind.bind, Except.bind] using h2

/-- C4 witness: the spec's end-to-end example — struct `Point` with
required `x : Number` then optional `color : Color`; adding a further
required value `y : Number` fails. -/
theorem structdef_trailing_optional_spec_witness :
    SsStructDef.addValue
      ⟨"Point", [⟨"x", false, some .Number, none, false⟩,
                 ⟨"color", true, none, some (.enum "Color" ["Red", "Green", "Blue"]), false⟩]⟩
      "y" false (some .Number) none false =
      .error "Value is not optional but value before was optional" :=
  structdef_trailing_optional_spec.2.1
    ⟨"Point", [⟨"x", false, some .Number, none, false⟩,
               ⟨"color", true, none, some (.enum "Color" ["Red", "Green", "Blue"]), false⟩]⟩
    "y" (some .Number) none false (by decide) (by decide)

/-- C5: constructing an `SsAttributeDataType` with `arrayNullable` set but
no array range always fails, and constructing one over a struct base kind
with an array range always fails when the struct has an optional value; in
both cases only an error (no value) is produced. -/
theorem attrdatatype_construction_failures :
    (∀ (pt : Option SsPredefinedType) (vt : Option SsValueTypeDef) (sd : Option SsStructDef)
       (nullable : Bool),
      ∃ msg, SsAttributeDataType.make pt vt sd nullable none true = .error msg) ∧
    (∀ (pt : Option SsPredefinedType) (vt : Option SsValueTypeDef) (sd : SsStructDef)
       (nullable : Bool) (r : SsRange) (arrayNullable : Bool),
      sd.hasOptional = true →
      ∃ msg, SsAttributeDataType.make pt vt (some sd) nullable (some r) arrayNullable = .error msg) := by
  constructor
  · intro pt vt sd nullable
    cases pt <;> cases vt <;> cases sd <;> simp [SsAttributeDataType.make]
  · intro pt vt sd nullable r arrayNullable h
    cases pt <;> cases vt <;>
      simp [SsAttributeDataType.make, SsAttributeDataType.isArray, h]

/-- C5 witness: both failure modes at concrete inputs — `Int?` with
`arrayNullable` but no range, and an array over a struct with an optional
value. -/
theorem attrdatatype_construction_failures_witness :
    (∃ msg, SsAttributeDataType.make (some .Int) none none true none true = .error msg) ∧
    (∃ msg, SsAttributeDataType.make none none
      (some ⟨"P", [⟨"x", true, some .Int, none, false⟩]⟩) false
      (some SsRange.required) false = .error msg) :=
  ⟨attrdatatype_construction_failures.1 (some .Int) none none true,
   attrdatatype_construction_failures.2 none none
     ⟨"P", [⟨"x", true, some .Int, none, false⟩]⟩ false SsRange.required false (by decide)⟩

/-! ## Definition-list scoping lemmas -/

theorem assocGet_append_self {α : Type} {m : List (String × α)} {name : String}
    (h : assocGet m name = none) (x : α) : assocGet (m ++ [(name, x)]) name = some x := by
  induction m with
  | nil => simp [assocGet, List.find?]
  | cons p rest ih =>
    by_cases hp : p.1 == name
    · simp [assocGet, List.find?_cons, hp] at h
    · have hp' : (p.1 == name) = false := Bool.eq_false_iff.mpr hp
      simp only [assocGet, List.cons_append, List.find?_cons, hp', cond_false] at h ⊢
      exact ih h

/-- C9: in every definition namespace, `add` fails exactly when the name
already exists in the local map (the parent chain plays no role in the
check); after a successful `add`, lookup from the inner scope returns the
locally added entity even when an ancestor defines the same name; and a
name absent from the local map is looked up through the parent chain. -/
theorem definition_list_scoping_spec :
    (∀ (α : Type) (f : SsDefFrame α) (name : String) (mkF : String → α),
      (∃ msg, chainAdd f name mkF = .error msg) ↔ (assocGet f.map name).isSome = true) ∧
    (∀ (α : Type) (f : SsDefFrame α) (parents : List (SsDefFrame α)) (name : String)
       (mkF : String → α) (item : α) (f' : SsDefFrame α),
      chainAdd f name mkF = .ok (item, f') →
      chainGetOrNull (f' :: parents) name = some item ∧
      chainGet (f' :: parents) name = .ok item) ∧
    (∀ (α : Type) (f : SsDefFrame α) (parents : List (SsDefFrame α)) (name : String),
      assocGet f.map name = none →
      chainGetOrNull (f :: parents) name = chainGetOrNull parents name ∧
      chainHas (f :: parents) name = chainHas parents name) := by
  refine ⟨?_, ?_, ?_⟩
  · intro α f name mkF
    unfold chainAdd
    by_cases hg : (assocGet f.map name).isSome <;> simp [hg]
  · intro α f parents name mkF item f' h
    unfold chainAdd at h
    by_cases hg : (assocGet f.map name).isSome
    · simp [hg] at h
    · simp only [hg, Bool.false_eq_true, if_false, Except.ok.injEq, Prod.mk.injEq] at h
      obtain ⟨hitem, hf'⟩ := h
      subst hitem
      subst hf'
      have hnone : assocGet f.map name = none := Option.not_isSome_iff_eq_none.mp hg
      have hget : assocGet (f.map ++ [(name, mkF name)]) name = some (mkF name) :=
        assocGet_append_self hnone (mkF name)
      constructor
      · simp [chainGetOrNull, hget]
      · simp [chainGet, chainGetOrNull, hget]
  · intro α f parents name h
    constructor
    · simp [chainGetOrNull, h]
    · simp [chainHas, h]

/-- C9 witness: adding `X` in an inner scope while the parent scope also
defines `X` succeeds, and an inner-scope lookup returns the inner entity. -/
theorem definition_list_scoping_spec_witness :
    chainGetOrNull
      ((⟨[("X", 42)], "ValueTypeDef", "ElementDef \"E\""⟩ : SsDefFrame Nat) ::
        [⟨[("X", 7)], "ValueTypeDef", "schema"⟩]) "X" = some 42 ∧
    chainGet
      ((⟨[("X", 42)], "ValueTypeDef", "ElementDef \"E\""⟩ : SsDefFrame Nat) ::
        [⟨[("X", 7)], "ValueTypeDef", "schema"⟩]) "X" = .ok 42 :=
  definition_list_scoping_spec.2.1 Nat ⟨[], "ValueTypeDef", "ElementDef \"E\""⟩
    [⟨[("X", 7)], "ValueTypeDef", "schema"⟩] "X" (fun _ => 42) 42
    ⟨[("X", 42)], "ValueTypeDef", "ElementDef \"E\""⟩ rfl

/-! ## Fresh-copy getter lemmas -/

theorem fresh_copy_write_read {α : Type} (h : JsHeap α) (r : Nat) (hr : r < h.length)
    (copy mutated : List α) :
    (((h.alloc copy).1.write (h.alloc copy).2 mutated)).read r = h.read r := by
  unfold JsHeap.alloc JsHeap.write JsHeap.read
  rw [List.get?_set_ne mutated _ (Ne.symm (Nat.ne_of_lt hr))]
  rw [List.get?_append hr]

theorem alloc_read_fresh {α : Type} (h : JsHeap α) (v : List α) :
    (h.alloc v).1.read (h.alloc v).2 = v := by
  unfold JsHeap.alloc JsHeap.read
  rw [List.get?_concat_length]
  rfl

/-- C10: the `values` getters return a fresh copy.  Overwriting the array
returned by `values` leaves the stored array unchanged, a second call to
`values` still yields the original contents, and for structs the
`hasOptional` check is unaffected by the mutation. -/
theorem values_getter_fresh_copy :
    (∀ (h : JsHeap String) (d : SsEnumTypeDefObj), d.valuesRef < h.length →
      ∀ (mutated : List String),
        (((d.valuesGet h).1.write (d.valuesGet h).2 mutated).read d.valuesRef
          = h.read d.valuesRef) ∧
        ((d.valuesGet ((d.valuesGet h).1.write (d.valuesGet h).2 mutated)).1.read
            ((d.valuesGet ((d.valuesGet h).1.write (d.valuesGet h).2 mutated)).2)
          = h.read d.valuesRef)) ∧
    (∀ (h : JsHeap SsStructValue) (d : SsStructDefObj), d.valuesRef < h.length →
      ∀ (mutated : List SsStructValue),
        (((d.valuesGet h).1.write (d.valuesGet h).2 mutated).read d.valuesRef
          = h.read d.valuesRef) ∧
        (SsStructDefObj.hasOptionalH d ((d.valuesGet h).1.write (d.valuesGet h).2 mutated)
          = SsStructDefObj.hasOptionalH d h)) := by
  constructor
  · intro h d hr mutated
    have h1 := fresh_copy_write_read h d.valuesRef hr (h.read d.valuesRef) mutated
    refine ⟨h1, ?_⟩
    unfold SsEnumTypeDefObj.valuesGet
    rw [alloc_read_fresh]
    exact h1
  · intro h d hr mutated
    have h1 := fresh_copy_write_read h d.valuesRef hr (h.read d.valuesRef) mutated
    refine ⟨h1, ?_⟩
    unfold SsStructDefObj.hasOptionalH
    unfold SsStructDefObj.valuesGet at h1 ⊢
    rw [h1]

/-- C10 witness: a concrete enum definition and heap — clearing the copied
array leaves the stored values readable. -/
theorem values_getter_fresh_copy_witness :
    ((SsEnumTypeDefObj.valuesGet ⟨"Color", 0⟩ [["Red", "Green", "Blue"]]).1.write
        (SsEnumTypeDefObj.valuesGet ⟨"Color", 0⟩ [["Red", "Green", "Blue"]]).2 []).read 0
      = ["Red", "Green", "Blue"] :=
  ((values_getter_fresh_copy.1 [["Red", "Green", "Blue"]] ⟨"Color", 0⟩ (by decide) []).1).trans rfl

/-! ## Name-allocator lemmas -/

theorem natRepr_ne_empty_below : ∀ i, i < 101 → Nat.repr i ≠ "" := by decide

theorem natRepr_inj_below : ∀ i, i < 101 → ∀ j, j < 101 → Nat.repr i = Nat.repr j → i = j := by
  decide

theorem string_append_left_cancel {n a b : String} (h : n ++ a = n ++ b) : a = b := by
  have hd := congrArg String.data h
  simp only [String.data_append] at hd
  exact String.ext (List.append_cancel_left hd)

theorem contains_eq_false_of_not_mem {l : List String} {x : String} (h : x ∉ l) :
    l.contains x = false := by
  rw [Bool.eq_false_iff]
  intro hc
  exact h (List.elem_iff.mp hc)

theorem cand_inj {normalized : String} {i j : Nat} (hi1 : 1 ≤ i) (hi2 : i ≤ 100)
    (hj1 : 1 ≤ j) (hj2 : j ≤ 100)
    (h : TsLookup.cand normalized i = TsLookup.cand normalized j) : i = j := by
  unfold TsLookup.cand at h
  by_cases hi : i = 1 <;> by_cases hj : j = 1
  · omega
  · exfalso
    rw [if_pos hi, if_neg hj] at h
    have h' : normalized ++ "" = normalized ++ Nat.repr j := by simpa using h
    exact natRepr_ne_empty_below j (by omega) (string_append_left_cancel h').symm
  · exfalso
    rw [if_neg hi, if_pos hj] at h
    have h' : normalized ++ Nat.repr i = normalized ++ "" := by simpa using h
    exact natRepr_ne_empty_below i (by omega) (string_append_left_cancel h')
  · rw [if_neg hi, if_neg hj] at h
    exact natRepr_inj_below i (by omega) j (by omega) (string_append_left_cancel h)

theorem cand_mem_allocExpected (flag : Bool) (b : String) {i k : Nat}
    (h1 : 1 ≤ i) (h2 : i ≤ k) :
    TsLookup.cand (TsUtil.getIdentifier b flag) i ∈ TsLookup.allocExpected flag b k := by
  unfold TsLookup.allocExpected
  refine List.mem_map.mpr ⟨i, ?_, rfl⟩
  rw [List.mem_range']
  exact ⟨i - 1, by omega, by omega⟩

theorem mem_allocExpected_bounds {flag : Bool} {b : String} {k : Nat} {x : String}
    (h : x ∈ TsLookup.allocExpected flag b k) :
    ∃ i, 1 ≤ i ∧ i ≤ k ∧ x = TsLookup.cand (TsUtil.getIdentifier b flag) i := by
  unfold TsLookup.allocExpected at h
  obtain ⟨j, hj, hx⟩ := List.mem_map.mp h
  rw [List.mem_range'] at hj
  obtain ⟨i, hik, hji⟩ := hj
  exact ⟨j, by omega, by omega, hx.symm⟩

theorem cand_not_mem_allocExpected (flag : Bool) (b : String) {k : Nat} (hk : k ≤ 99) :
    TsLookup.cand (TsUtil.getIdentifier b flag) (k + 1) ∉ TsLookup.allocExpected flag b k := by
  intro hmem
  obtain ⟨i, hi1, hi2, heq⟩ := mem_allocExpected_bounds hmem
  have := cand_inj (i := k + 1) (j := i) (by omega) (by omega) (by omega) (by omega) heq
  omega

theorem allocExpected_nodup (flag : Bool) (b : String) {k : Nat} (hk : k ≤ 99) :
    (TsLookup.allocExpected flag b k).Nodup := by
  unfold TsLookup.allocExpected
  refine List.Nodup.map_on ?_ (List.nodup_range' 1 k)
  intro x hx y hy hxy
  rw [List.mem_range'] at hx hy
  obtain ⟨i, hik, hxi⟩ := hx
  obtain ⟨j, hjk, hyj⟩ := hy
  exact cand_inj (by omega) (by omega) (by omega) (by omega) hxy

theorem allocExpected_succ (flag : Bool) (b : String) (k : Nat) :
    TsLookup.allocExpected flag b (k + 1) =
      TsLookup.allocExpected flag b k ++
        [TsLookup.cand (TsUtil.getIdentifier b flag) (k + 1)] := by
  unfold TsLookup.allocExpected
  have h := @List.range'_concat 1 1 k
  simp only [one_mul] at h
  rw [Nat.add_comm 1 k] at h
  rw [h, List.map_append]
  rfl

theorem genSuffix_skips (flag : Bool) (b : String) {k : Nat} (hk1 : 1 ≤ k) (hk : k ≤ 98) :
    ∀ (fuel i : Nat), 2 ≤ i → i ≤ k + 1 → i + fuel = 100 →
      TsLookup.genSuffix (TsLookup.allocExpected flag b k) (TsUtil.getIdentifier b flag) fuel i =
        .ok (TsUtil.getIdentifier b flag ++ Nat.repr (k + 1)) := by
  intro fuel
  induction fuel with
  | zero =>
    intro i h2 hik hif
    exact absurd hif (by omega)
  | succ fuel ih =>
    intro i h2 hik hif
    by_cases hcase : i = k + 1
    · subst hcase
      have hnotmem := cand_not_mem_allocExpected flag b (k := k) (by omega)
      have hrepr : TsLookup.cand (TsUtil.getIdentifier b flag) (k + 1) =
          TsUtil.getIdentifier b flag ++ Nat.repr (k + 1) := by
        unfold TsLookup.cand
        rw [if_neg (by omega)]
      rw [hrepr] at hnotmem
      have hcont := contains_eq_false_of_not_mem hnotmem
      simp only [TsLookup.genSuffix, hcont, Bool.false_eq_true, if_false]
    · have hmem : (TsUtil.getIdentifier b flag ++ Nat.repr i) ∈ TsLookup.allocExpected flag b k := by
        have := cand_mem_allocExpected flag b (i := i) (k := k)
          (by omega) (by omega)
        have hrepr : TsLookup.cand (TsUtil.getIdentifier b flag) i =
            TsUtil.getIdentifier b flag ++ Nat.repr i := by
          unfold TsLookup.cand
          rw [if_neg (by omega)]
        rwa [hrepr] at this
      have hcont := List.elem_iff.mpr hmem
      simp only [TsLookup.genSuffix, hcont, if_true]
      exact ih (i + 1) (by omega) (by omega) (by omega)

theorem genSuffix_exhausts (flag : Bool) (b : String) :
    ∀ (fuel i : Nat), 2 ≤ i → i + fuel = 100 →
      TsLookup.genSuffix (TsLookup.allocExpected flag b 99) (TsUtil.getIdentifier b flag) fuel i =
        .error "Too many identical names" := by
  intro fuel
  induction fuel with
  | zero => intro i _ _; rfl
  | succ fuel ih =>
    intro i h2 hif
    have hmem : (TsUtil.getIdentifier b flag ++ Nat.repr i) ∈ TsLookup.allocExpected flag b 99 := by
      have := cand_mem_allocExpected flag b (i := i) (k := 99)
        (by omega) (by omega)
      have hrepr : TsLookup.cand (TsUtil.getIdentifier b flag) i =
          TsUtil.getIdentifier b flag ++ Nat.repr i := by
        unfold TsLookup.cand
        rw [if_neg (by omega)]
      rwa [hrepr] at this
    have hcont := List.elem_iff.mpr hmem
    simp only [TsLookup.genSuffix, hcont, if_true]
    exact ih (i + 1) (by omega) (by omega)

theorem generateName_state (flag : Bool) (b : String) (hb : b.length ≠ 0) {k : Nat}
    (hk : k ≤ 98) (nl : List (Nat × String)) (lk : List (Nat × Nat)) :
    TsLookup.generateName
        (⟨TsLookup.allocExpected flag b k, nl, lk, flag⟩ : TsLookup Nat Nat) b =
      .ok (TsLookup.cand (TsUtil.getIdentifier b flag) (k + 1)) := by
  unfold TsLookup.generateName
  rw [if_neg hb]
  by_cases hk0 : k = 0
  · subst hk0
    have hrepr : TsLookup.cand (TsUtil.getIdentifier b flag) 1 = TsUtil.getIdentifier b flag := by
      unfold TsLookup.cand
      rw [if_pos rfl]
    simp [TsLookup.allocExpected, hrepr]
  · have hmem : TsUtil.getIdentifier b flag ∈ TsLookup.allocExpected flag b k := by
      have := cand_mem_allocExpected flag b (i := 1) (k := k)
        le_rfl (by omega)
      have hrepr : TsLookup.cand (TsUtil.getIdentifier b flag) 1 = TsUtil.getIdentifier b flag := by
        unfold TsLookup.cand
        rw [if_pos rfl]
      rwa [hrepr] at this
    have hcont := List.elem_iff.mpr hmem
    simp only [hcont, Bool.not_true, Bool.false_eq_true, if_false]
    have hres := genSuffix_skips flag b (k := k) (by omega) (by omega) 98 2
      (by omega) (by omega) (by omega)
    rw [hres]
    have hrepr : TsLookup.cand (TsUtil.getIdentifier b flag) (k + 1) =
        TsUtil.getIdentifier b flag ++ Nat.repr (k + 1) := by
      unfold TsLookup.cand
      rw [if_neg (by omega)]
    rw [hrepr]

theorem allocN_state (flag : Bool) (b : String) (hb : b.length ≠ 0) :
    ∀ k, k ≤ 99 → ∃ nl lk, TsLookup.allocN flag b k =
      .ok (TsLookup.allocExpected flag b k,
        ⟨TsLookup.allocExpected flag b k, nl, lk, flag⟩) := by
  intro k
  induction k with
  | zero => intro _; exact ⟨[], [], rfl⟩
  | succ k ih =>
    intro hk1
    obtain ⟨nl, lk, hstate⟩ := ih (by omega)
    have hgen := generateName_state flag b hb (k := k) (by omega) nl lk
    have hnot := cand_not_mem_allocExpected flag b (k := k) (by omega)
    have hcont := contains_eq_false_of_not_mem hnot
    refine ⟨jsMapSet nl k (TsLookup.cand (TsUtil.getIdentifier b flag) (k + 1)),
      jsMapSet lk k k, ?_⟩
    show TsLookup.allocN flag b (k + 1) = _
    unfold TsLookup.allocN
    rw [hstate]
    simp only [Bind.bind, Except.bind]
    rw [hgen]
    unfold TsLookup.add
    simp only [hcont, Bool.false_eq_true, if_false]
    rw [← allocExpected_succ]
    rfl

theorem allocN_100_fails (flag : Bool) (b : String) (hb : b.length ≠ 0) :
    TsLookup.allocN flag b 100 = .error "Too many identical names" := by
  obtain ⟨nl, lk, hstate⟩ := allocN_state flag b hb 99 le_rfl
  show TsLookup.allocN flag b (99 + 1) = _
  unfold TsLookup.allocN
  rw [hstate]
  simp only [Bind.bind, Except.bind]
  unfold TsLookup.generateName
  rw [if_neg hb]
  have hmem : TsUtil.getIdentifier b flag ∈ TsLookup.allocExpected flag b 99 := by
    have := cand_mem_allocExpected flag b (i := 1) (k := 99)
      le_rfl (by omega)
    have hrepr : TsLookup.cand (TsUtil.getIdentifier b flag) 1 = TsUtil.getIdentifier b flag := by
      unfold TsLookup.cand
      rw [if_pos rfl]
    rwa [hrepr] at this
  have hcont := List.elem_iff.mpr hmem
  simp only [hcont, Bool.not_true, Bool.false_eq_true, if_false]
  rw [genSuffix_exhausts flag b 98 2 (by omega) (by omega)]

/-- C8: allocating names for one base in one allocator instance: every
prefix of at most 99 allocations succeeds and returns exactly the expected
pairwise-distinct identifiers — the normalized base first, then the base
with the first unused suffix from `2..99` in increasing order — and the
100th allocation of the same base fails. -/
theorem tsLookup_allocation_spec (flag : Bool) (b : String) (hb : b.length ≠ 0) :
    (∀ k, k ≤ 99 → ∃ t, TsLookup.allocN flag b k =
      .ok (TsLookup.allocExpected flag b k, t)) ∧
    (∀ k, k ≤ 99 → (TsLookup.allocExpected flag b k).Nodup) ∧
    TsLookup.allocExpected flag b 1 = [TsUtil.getIdentifier b flag] ∧
    (∀ k, TsLookup.allocExpected flag b (k + 1) =
      TsLookup.allocExpected flag b k ++
        [TsLookup.cand (TsUtil.getIdentifier b flag) (k + 1)]) ∧
    (∀ k, 2 ≤ k → TsLookup.cand (TsUtil.getIdentifier b flag) k =
      TsUtil.getIdentifier b flag ++ Nat.repr k) ∧
    TsLookup.allocN flag b 100 = .error "Too many identical names" := by
  refine ⟨?_, ?_, ?_, ?_, ?_, ?_⟩
  · intro k hk
    obtain ⟨nl, lk, h⟩ := allocN_state flag b hb k hk
    exact ⟨_, h⟩
  · intro k hk
    exact allocExpected_nodup flag b hk
  · have hrepr : TsLookup.cand (TsUtil.getIdentifier b flag) 1 = TsUtil.getIdentifier b flag := by
      unfold TsLookup.cand
      rw [if_pos rfl]
    rw [show (1 : Nat) = 0 + 1 from rfl, allocExpected_succ, hrepr]
    rfl
  · intro k
    exact allocExpected_succ flag b k
  · intro k hk
    unfold TsLookup.cand
    rw [if_neg (by omega)]
  · exact allocN_100_fails flag b hb

/-- C8 witness: two allocations of base `x` return `X` then `X2`, and the
100th allocation fails. -/
theorem tsLookup_allocation_spec_witness :
    (∃ t, TsLookup.allocN true "x" 2 = .ok (TsLookup.allocExpected true "x" 2, t)) ∧
    TsLookup.allocN true "x" 100 = .error "Too many identical names" :=
  ⟨(tsLookup_allocation_spec true "x" (by decide)).1 2 (by decide),
   (tsLookup_allocation_spec true "x" (by decide)).2.2.2.2.2⟩
